import Mathlib

/-!
Verification of the StockInsight formula engine and screening orchestrator
(`src/core/formula_engine.py`, `src/api/screener.py`).

The embedding models numpy float64 values as exact rationals extended with
`nan` (the "missing" sentinel), `+inf` and `-inf`.  Rounding is not modelled:
no claim under verification depends on floating-point rounding, only on
nan/inf propagation and exact small-integer arithmetic.
-/

namespace StockInsight

/-- A numpy float64 value: a finite rational, an infinity, or NaN
(the "missing" sentinel of the formula engine). -/
inductive F where
  | fin (q : ℚ)
  | pinf
  | ninf
  | nan
deriving DecidableEq, Repr

namespace F

/-- IEEE addition (exact on finite values). -/
def add : F → F → F
  | nan, _ => nan
  | _, nan => nan
  | pinf, ninf => nan
  | ninf, pinf => nan
  | pinf, _ => pinf
  | _, pinf => pinf
  | ninf, _ => ninf
  | _, ninf => ninf
  | fin a, fin b => fin (a + b)

/-- IEEE subtraction (exact on finite values). -/
def sub : F → F → F
  | nan, _ => nan
  | _, nan => nan
  | pinf, pinf => nan
  | ninf, ninf => nan
  | pinf, _ => pinf
  | _, pinf => ninf
  | ninf, _ => ninf
  | _, ninf => pinf
  | fin a, fin b => fin (a - b)

/-- IEEE multiplication; 0 * inf = nan. -/
def mul : F → F → F
  | nan, _ => nan
  | _, nan => nan
  | pinf, pinf => pinf
  | pinf, ninf => ninf
  | ninf, pinf => ninf
  | ninf, ninf => pinf
  | pinf, fin b => if b = 0 then nan else if 0 < b then pinf else ninf
  | fin a, pinf => if a = 0 then nan else if 0 < a then pinf else ninf
  | ninf, fin b => if b = 0 then nan else if 0 < b then ninf else pinf
  | fin a, ninf => if a = 0 then nan else if 0 < a then ninf else pinf
  | fin a, fin b => fin (a * b)

/-- IEEE division; x/0 gives a signed infinity (0/0 gives nan), matching
numpy's behaviour of emitting a warning but no exception.  (Signed zero is
not modelled; division by zero uses the +0 convention.) -/
def div : F → F → F
  | nan, _ => nan
  | _, nan => nan
  | pinf, pinf => nan
  | pinf, ninf => nan
  | ninf, pinf => nan
  | ninf, ninf => nan
  | pinf, fin b => if 0 ≤ b then pinf else ninf
  | ninf, fin b => if 0 ≤ b then ninf else pinf
  | fin _, pinf => fin 0
  | fin _, ninf => fin 0
  | fin a, fin b =>
      if b = 0 then (if a = 0 then nan else if 0 < a then pinf else ninf)
      else fin (a / b)

/-- IEEE `<`: any comparison involving nan is false. -/
def lt : F → F → Bool
  | nan, _ => false
  | _, nan => false
  | pinf, _ => false
  | ninf, ninf => false
  | ninf, _ => true
  | fin _, pinf => true
  | fin _, ninf => false
  | fin a, fin b => decide (a < b)

/-- IEEE `≤`: any comparison involving nan is false. -/
def le : F → F → Bool
  | nan, _ => false
  | _, nan => false
  | pinf, pinf => true
  | pinf, _ => false
  | ninf, _ => true
  | fin _, pinf => true
  | fin _, ninf => false
  | fin a, fin b => decide (a ≤ b)

/-- IEEE `==`: nan is equal to nothing, including itself. -/
def eq : F → F → Bool
  | nan, _ => false
  | _, nan => false
  | pinf, pinf => true
  | ninf, ninf => true
  | fin a, fin b => decide (a = b)
  | _, _ => false

def gt (a b : F) : Bool := lt b a
def ge (a b : F) : Bool := le b a

/-- `np.isnan`. -/
def isnan : F → Bool
  | nan => true
  | _ => false

/-- Python / numpy truthiness of a float value: nonzero (nan and the
infinities are truthy). -/
def truthy : F → Bool
  | fin q => decide (q ≠ 0)
  | _ => true

/-- `np.abs`. -/
def fabs : F → F
  | nan => nan
  | pinf => pinf
  | ninf => pinf
  | fin a => fin |a|

/-- `np.maximum` (propagates nan, unlike fmax). -/
def fmax (a b : F) : F :=
  match a, b with
  | nan, _ => nan
  | _, nan => nan
  | _, _ => if le a b then b else a

/-- `np.minimum` (propagates nan). -/
def fmin (a b : F) : F :=
  match a, b with
  | nan, _ => nan
  | _, nan => nan
  | _, _ => if le a b then a else b

/-- Exact square root of a rational when it exists; otherwise a floor-based
approximation.  `ℚ` cannot represent irrational square roots; no claim under
verification depends on the value of SQRT/STD on non-perfect squares. -/
def ratSqrt (q : ℚ) : ℚ :=
  mkRat (Int.ofNat q.num.toNat.sqrt) q.den.sqrt

/-- `np.sqrt`: negative argument gives nan (with only a warning in numpy). -/
def fsqrt : F → F
  | nan => nan
  | pinf => pinf
  | ninf => nan
  | fin a => if a < 0 then nan else fin (ratSqrt a)

/-- `q ^ n` for an integer exponent (`0 ^ -n` gives +inf like numpy float
power). -/
def ratPowInt (q : ℚ) (n : ℤ) : F :=
  if 0 ≤ n then fin (q ^ n.toNat)
  else if q = 0 then pinf
  else fin (q ^ n.toNat)⁻¹

/-- `np.power` on float operands.  Exact for integer exponents; a
non-integer exponent on a positive base is irrational in general and is
modelled as nan (no claim depends on POW's value there). -/
def fpow : F → F → F
  | nan, _ => nan
  | _, nan => nan
  | fin a, fin b =>
      if b.den = 1 then ratPowInt a b.num
      else if a < 0 then nan
      else nan
  | pinf, fin b => if b = 0 then fin 1 else if 0 < b then pinf else fin 0
  | ninf, fin b => if b = 0 then fin 1 else nan
  | fin a, pinf => if a = 1 then fin 1 else if fabs (fin a) |>.lt (fin 1) then fin 0 else pinf
  | fin a, ninf => if a = 1 then fin 1 else if fabs (fin a) |>.lt (fin 1) then pinf else fin 0
  | pinf, pinf => pinf
  | pinf, ninf => fin 0
  | ninf, pinf => pinf
  | ninf, ninf => fin 0

/-- Embed an integer. -/
def ofInt (n : ℤ) : F := fin (n : ℚ)

end F

/-- A runtime value of the formula engine: a Python `int`, a float scalar,
a Python/numpy bool scalar, a float ndarray, a bool ndarray, or Python
`None` (the result of an empty program).  numpy integer arrays are modelled
as float arrays with integral entries (arithmetic here is exact, so the
distinction is value-irrelevant). -/
inductive Val where
  | vint (n : ℤ)
  | vfloat (x : F)
  | vbool (b : Bool)
  | varr (xs : List F)
  | vbarr (bs : List Bool)
  | vnone
deriving DecidableEq, Repr

/-- An evaluation error.  `ref` covers the `ValueError`s raised textually by
`_eval_expr` itself (unknown function `未知函数`, unresolvable expression
`无法解析表达式`) — the "syntax / reference" class of the spec.  `data`
covers every data-dependent failure (type errors inside built-ins, numpy
broadcast errors, the missing-dataframe-column error `数据列不存在`, and
fuel exhaustion of this embedding). -/
inductive Err where
  | ref (msg : String)
  | data (msg : String)
deriving DecidableEq, Repr

deriving instance DecidableEq for Except

def Err.isRef : Err → Bool
  | .ref _ => true
  | .data _ => false

/-- Is the outcome one of the compile-time error kinds (syntax / unknown
function / unresolvable identifier)? -/
def isRefErr {α : Type} : Except Err α → Bool
  | .error e => e.isRef
  | .ok _ => false

def isOkRes {α : Type} : Except Err α → Bool
  | .ok _ => true
  | .error _ => false

namespace Val

/-- View a value as a numpy float scalar, if it is scalar
(Python bools are numeric). -/
def asScalar : Val → Option F
  | vint n => some (F.ofInt n)
  | vfloat x => some x
  | vbool b => some (F.ofInt (if b then 1 else 0))
  | _ => none

/-- View a value as a float array, if it is an array (bool arrays cast to
0.0/1.0 exactly as numpy does in arithmetic). -/
def asArray : Val → Option (List F)
  | varr xs => some xs
  | vbarr bs => some (bs.map (fun b => F.ofInt (if b then 1 else 0)))
  | _ => none

/-- `pd.Series(x)`: an array stays itself, a scalar becomes the singleton
series. -/
def asSeries : Val → Except String (List F)
  | varr xs => .ok xs
  | vbarr bs => .ok (bs.map (fun b => F.ofInt (if b then 1 else 0)))
  | vint n => .ok [F.ofInt n]
  | vfloat x => .ok [x]
  | vbool b => .ok [F.ofInt (if b then 1 else 0)]
  | vnone => .error "TypeError: None"

/-- A raw ndarray argument (functions like `_ref` call `len(data)` /
`np.full(len(data), ...)`, which raises on scalars). -/
def asNdarray : Val → Except String (List F)
  | varr xs => .ok xs
  | vbarr bs => .ok (bs.map (fun b => F.ofInt (if b then 1 else 0)))
  | _ => .error "TypeError: object has no len()"

/-- Python `int(x)` coercion used by the built-ins (`int(period)`):
truncates floats toward zero; raises on nan/inf and on (multi-element)
arrays. -/
def pyInt : Val → Except String ℤ
  | vint n => .ok n
  | vbool b => .ok (if b then 1 else 0)
  | vfloat (F.fin q) => .ok (q.num / (q.den : ℤ))
  | vfloat _ => .error "ValueError: cannot convert float nan/inf to integer"
  | _ => .error "TypeError: int() of array"

end Val

/-- Elementwise binary float operation with numpy broadcasting between
scalars and equal-length 1-D arrays (shape mismatch raises). -/
def lift2 (f : F → F → F) (a b : Val) : Except String Val :=
  match a.asScalar, b.asScalar with
  | some x, some y => .ok (.vfloat (f x y))
  | some x, none =>
      match b.asArray with
      | some ys => .ok (.varr (ys.map (fun y => f x y)))
      | none => .error "TypeError: unsupported operand"
  | none, some y =>
      match a.asArray with
      | some xs => .ok (.varr (xs.map (fun x => f x y)))
      | none => .error "TypeError: unsupported operand"
  | none, none =>
      match a.asArray, b.asArray with
      | some xs, some ys =>
          if xs.length = ys.length then .ok (.varr (List.zipWith f xs ys))
          else .error "ValueError: operands could not be broadcast"
      | _, _ => .error "TypeError: unsupported operand"

/-- Elementwise comparison with broadcasting; scalar-scalar comparisons
give a bool scalar, anything else a bool array. -/
def liftCmp (f : F → F → Bool) (a b : Val) : Except String Val :=
  match a.asScalar, b.asScalar with
  | some x, some y => .ok (.vbool (f x y))
  | some x, none =>
      match b.asArray with
      | some ys => .ok (.vbarr (ys.map (fun y => f x y)))
      | none => .error "TypeError: unsupported comparison"
  | none, some y =>
      match a.asArray with
      | some xs => .ok (.vbarr (xs.map (fun x => f x y)))
      | none => .error "TypeError: unsupported comparison"
  | none, none =>
      match a.asArray, b.asArray with
      | some xs, some ys =>
          if xs.length = ys.length then .ok (.vbarr (List.zipWith f xs ys))
          else .error "ValueError: operands could not be broadcast"
      | _, _ => .error "TypeError: unsupported comparison"

/-- Python addition as performed by `left_val + right_val`: exact `int`
arithmetic when both operands are Python ints, float/array semantics
otherwise. -/
def vAdd (a b : Val) : Except String Val :=
  match a, b with
  | .vint x, .vint y => .ok (.vint (x + y))
  | _, _ => lift2 F.add a b

def vSub (a b : Val) : Except String Val :=
  match a, b with
  | .vint x, .vint y => .ok (.vint (x - y))
  | _, _ => lift2 F.sub a b

def vMul (a b : Val) : Except String Val :=
  match a, b with
  | .vint x, .vint y => .ok (.vint (x * y))
  | _, _ => lift2 F.mul a b

/-- The guard `np.where(right_val == 0, np.nan, right_val)` applied to the
divisor before a `/` in `_eval_expr`: zero entries become nan (nan and inf
entries are unchanged, since they never compare equal to 0). -/
def zeroGuard (b : Val) : Val :=
  match b with
  | .vint n => if n = 0 then .vfloat F.nan else .vfloat (F.ofInt n)
  | .vfloat x => if F.eq x (F.fin 0) then .vfloat F.nan else .vfloat x
  | .vbool c => if c then .vfloat (F.fin 1) else .vfloat F.nan
  | .varr xs => .varr (xs.map (fun x => if F.eq x (F.fin 0) then F.nan else x))
  | .vbarr bs => .varr (bs.map (fun c => if c then F.fin 1 else F.nan))
  | .vnone => .vnone

/-- Python true division `left_val / right_val` (after the zero guard the
divisor is never a finite zero, so no exception can arise from the
division itself). -/
def vDiv (a b : Val) : Except String Val := lift2 F.div a b

/-- Python / numpy truthiness of one value when collapsed elementwise
by `np.all` / `np.any`: scalars contribute a constant. -/
def truthyRow (v : Val) : Option Bool :=
  match v.asScalar with
  | some x => some (F.truthy x)
  | none => none

/-- The per-row boolean view of an array value. -/
def truthyArr (v : Val) : Option (List Bool) :=
  match v with
  | .varr xs => some (xs.map F.truthy)
  | .vbarr bs => some bs
  | _ => none

/-- `np.asarray(results)` shape analysis for `np.all(results, axis=0)` /
`np.any(results, axis=0)`: a list of equal-length arrays forms a 2-D array
reduced columnwise; a list of scalars reduces to one bool; a ragged mix
(scalars together with arrays, or arrays of different lengths) makes an
inhomogeneous array and raises in current numpy. -/
def npReduce (init : Bool) (step : Bool → Bool → Bool) (vs : List Val) :
    Except String Val :=
  if vs.all (fun v => (truthyRow v).isSome) then
    .ok (.vbool (vs.foldl (fun acc v => step acc ((truthyRow v).getD init)) init))
  else
    match vs with
    | [] => .error "ValueError: empty"
    | v₀ :: _ =>
        match truthyArr v₀ with
        | none => .error "ValueError: inhomogeneous"
        | some r₀ =>
            let n := r₀.length
            if vs.all (fun v => (truthyArr v).isSome ∧
                ((truthyArr v).getD []).length = n) then
              .ok (.vbarr ((vs.map (fun v => (truthyArr v).getD [])).foldl
                (fun acc row => List.zipWith step acc row) (List.replicate n init)))
            else .error "ValueError: inhomogeneous"

/-- `np.all(results, axis=0)`. -/
def npAll (vs : List Val) : Except String Val := npReduce true (· && ·) vs

/-- `np.any(results, axis=0)`. -/
def npAny (vs : List Val) : Except String Val := npReduce false (· || ·) vs

/-! ### String utilities

Transcriptions of the string-level operations the engine performs
(`str.strip`, `re.split`, the hand-written operator scanners, the function
call regular expression, `int()` / `float()` literal parsing).  These are
all pure functions of the text, independent of the evaluation context. -/

/-- Python `str` whitespace (ASCII part; formulas contain no exotic
unicode whitespace). -/
def isWs (c : Char) : Bool :=
  c == ' ' || c == '\t' || c == '\n' || c == '\r' || c == '\x0b' || c == '\x0c'

/-- Python `str.strip()`. -/
def pyStrip (s : List Char) : List Char :=
  ((s.dropWhile isWs).reverse.dropWhile isWs).reverse

/-- `str.upper()` (ASCII; identifiers in formulas are ASCII or Chinese,
and Chinese has no case). -/
def upperStr (s : List Char) : List Char := s.map Char.toUpper

/-- Does `pat` occur as a contiguous substring of `s`? -/
def startsWithStr : List Char → List Char → Bool
  | [], _ => true
  | _ :: _, [] => false
  | p :: ps, c :: cs => p == c && startsWithStr ps cs

def containsStr (pat : List Char) : List Char → Bool
  | [] => startsWithStr pat []
  | c :: cs => startsWithStr pat (c :: cs) || containsStr pat cs

/-- Case-insensitive prefix match, returning the remainder on success. -/
def dropCI : List Char → List Char → Option (List Char)
  | [], cs => some cs
  | _ :: _, [] => none
  | p :: ps, c :: cs => if p.toUpper == c.toUpper then dropCI ps cs else none

/-- Match of `\s+WORD\s+` (case-insensitive) at the start of `cs`,
returning the remainder after the (greedy) match. -/
def matchWsWordWs (word : List Char) (cs : List Char) : Option (List Char) :=
  if (cs.takeWhile isWs).isEmpty then none
  else
    match dropCI word (cs.dropWhile isWs) with
    | none => none
    | some r2 =>
        if (r2.takeWhile isWs).isEmpty then none else some (r2.dropWhile isWs)

/-- `re.split(r'\s+WORD\s+', s, flags=re.IGNORECASE)`: leftmost,
non-overlapping, greedy.  Fuel-driven scan (fuel ≥ length always
suffices since every step consumes at least one character). -/
def reSplitAux (word : List Char) : Nat → List Char → List Char → List (List Char)
  | 0, acc, rest => [acc.reverse ++ rest]
  | _ + 1, acc, [] => [acc.reverse]
  | fuel + 1, acc, c :: cs =>
      match matchWsWordWs word (c :: cs) with
      | some rest => acc.reverse :: reSplitAux word fuel [] rest
      | none => reSplitAux word fuel (c :: acc) cs

def reSplitWord (word s : List Char) : List (List Char) :=
  reSplitAux word s.length [] s

/-- `FormulaEngine._find_comparison_operator`: left-to-right scan outside
parentheses, skipping `>`/`<` that are part of `>=`/`<=` and `=` that is
part of `>=`,`<=`,`!=`. -/
def findCmpOpAux (op : List Char) : Nat → Int → Option Char → List Char → Option Nat
  | _, _, _, [] => none
  | i, depth, prev, c :: rest =>
      if c == '(' then findCmpOpAux op (i + 1) (depth + 1) (some c) rest
      else if c == ')' then findCmpOpAux op (i + 1) (depth - 1) (some c) rest
      else if depth == 0 && startsWithStr op (c :: rest) then
        if op == ['>'] && rest.head? == some '=' then
          findCmpOpAux op (i + 1) depth (some c) rest
        else if op == ['<'] && rest.head? == some '=' then
          findCmpOpAux op (i + 1) depth (some c) rest
        else if op == ['='] &&
            (prev == some '>' || prev == some '<' || prev == some '!') then
          findCmpOpAux op (i + 1) depth (some c) rest
        else some i
      else findCmpOpAux op (i + 1) depth (some c) rest

/-- `FormulaEngine._find_operator`: right-to-left scan outside parentheses
for the first member of `ops`; returns the 0-based index from the left, or
`none` for Python's `-1`. -/
def findOpRLAux (ops : List Char) : Nat → Int → List Char → Option Nat
  | _, _, [] => none
  | j, depth, c :: rest =>
      if c == ')' then findOpRLAux ops (j + 1) (depth + 1) rest
      else if c == '(' then findOpRLAux ops (j + 1) (depth - 1) rest
      else if depth == 0 && ops.contains c then some j
      else findOpRLAux ops (j + 1) depth rest

def findOpRL (ops : List Char) (s : List Char) : Option Nat :=
  (findOpRLAux ops 0 0 s.reverse).map (fun j => s.length - 1 - j)

/-- `FormulaEngine._parse_args` splitting: comma-separated at parenthesis
depth zero; each piece is stripped and empty pieces are dropped. -/
def splitArgsAux : Int → List Char → List Char → List (List Char)
  | _, current, [] =>
      let a := pyStrip current.reverse
      if a.isEmpty then [] else [a]
  | depth, current, c :: rest =>
      if c == '(' then splitArgsAux (depth + 1) (c :: current) rest
      else if c == ')' then splitArgsAux (depth - 1) (c :: current) rest
      else if c == ',' && depth == 0 then
        let a := pyStrip current.reverse
        if a.isEmpty then splitArgsAux depth [] rest
        else a :: splitArgsAux depth [] rest
      else splitArgsAux depth (c :: current) rest

def splitArgsStr (s : List Char) : List (List Char) := splitArgsAux 0 [] s

def isNameStart (c : Char) : Bool := c.isAlpha || c == '_'
def isNameChar (c : Char) : Bool := c.isAlphanum || c == '_'

/-- `re.match(r'^([A-Z_][A-Z0-9_]*)\s*\((.*)\)$', expr, re.IGNORECASE)`:
a function-call shape.  `.` does not match a newline; `expr` is stripped,
so `$` is plain end-of-string. -/
def matchFuncCall (s : List Char) : Option (List Char × List Char) :=
  match s with
  | [] => none
  | c :: rest =>
      if isNameStart c then
        let name := c :: rest.takeWhile isNameChar
        let r2 := (rest.dropWhile isNameChar).dropWhile isWs
        match r2 with
        | '(' :: inner =>
            match inner.reverse with
            | ')' :: midRev =>
                let mid := midRev.reverse
                if mid.contains '\n' then none else some (name, mid)
            | _ => none
        | _ => none
      else none

def digitsVal (ds : List Char) : ℤ :=
  ds.foldl (fun a c => a * 10 + ((c.toNat : ℤ) - ('0'.toNat : ℤ))) 0

/-- Python `int(s)` on a stripped string: optional sign then digits
(digit-group underscores are not modelled; no formula uses them). -/
def parseIntPy (s : List Char) : Option ℤ :=
  let (sign, ds) : ℤ × List Char :=
    match s with
    | '+' :: r => (1, r)
    | '-' :: r => (-1, r)
    | r => (1, r)
  if !ds.isEmpty && ds.all Char.isDigit then some (sign * digitsVal ds) else none

/-- Python `float(s)` on a stripped string containing a `.`:
`[sign] digits [. digits] [e [sign] digits]` with at least one digit in the
mantissa.  (`float` also accepts inf/nan spellings; those contain no `.`
and cannot reach this parse in `_eval_expr`.) -/
def parseFloatPy (s : List Char) : Option ℚ :=
  let (sign, r0) : ℚ × List Char :=
    match s with
    | '+' :: r => (1, r)
    | '-' :: r => (-1, r)
    | r => (1, r)
  let ip := r0.takeWhile Char.isDigit
  let r1 := r0.dropWhile Char.isDigit
  let (fp, r2) : List Char × List Char :=
    match r1 with
    | '.' :: r => (r.takeWhile Char.isDigit, r.dropWhile Char.isDigit)
    | r => ([], r)
  if ip.isEmpty && fp.isEmpty then none
  else if r1.head? ≠ some '.' then none
  else
    let mant : ℚ := (digitsVal ip : ℚ) + (digitsVal fp : ℚ) / ((10 : ℚ) ^ fp.length)
    match r2 with
    | [] => some (sign * mant)
    | e :: r3 =>
        if e == 'e' || e == 'E' then
          let (esign, r4) : ℤ × List Char :=
            match r3 with
            | '+' :: r => (1, r)
            | '-' :: r => (-1, r)
            | r => (1, r)
          if !r4.isEmpty && r4.all Char.isDigit then
            let ex := esign * digitsVal r4
            some (sign * mant * (if 0 ≤ ex then (10 : ℚ) ^ ex.toNat else ((10 : ℚ) ^ (-ex).toNat)⁻¹))
          else none
        else none

/-- `re.sub(r'\x7b[^\x7d]*\x7d', '', formula)`: remove `{...}` comments
(leftmost, non-overlapping; an unclosed `\x7b` is kept). -/
def stripCommentsAux : Nat → List Char → List Char
  | 0, s => s
  | _ + 1, [] => []
  | fuel + 1, c :: rest =>
      if c == '\x7b' then
        if rest.contains '\x7d' then
          stripCommentsAux fuel ((rest.dropWhile (fun d => !(d == '\x7d'))).tail)
        else c :: stripCommentsAux fuel rest
      else c :: stripCommentsAux fuel rest

def stripComments (s : List Char) : List Char := stripCommentsAux s.length s

/-- `formula.split(';')`. -/
def splitOnChar (sep : Char) : List Char → List (List Char)
  | [] => [[]]
  | c :: cs =>
      if c == sep then [] :: splitOnChar sep cs
      else
        match splitOnChar sep cs with
        | [] => [[c]]
        | p :: ps => (c :: p) :: ps

/-- `line.split(':=', 1)`: split at the first occurrence of `pat`. -/
def splitFirstStr (pat : List Char) : List Char → Option (List Char × List Char)
  | [] => if pat.isEmpty then some ([], []) else none
  | c :: cs =>
      if startsWithStr pat (c :: cs) then some ([], (c :: cs).drop pat.length)
      else
        match splitFirstStr pat cs with
        | some (l, r) => some (c :: l, r)
        | none => none

/-! ### The function library

Transcriptions of the `FormulaEngine._ma … _crossdown` built-ins.  A
built-in returns `Except String Val`: every failure inside a built-in is a
data-dependent Python exception, wrapped as `Err.data` at the call site in
the evaluator. -/

def sumF (xs : List F) : F := xs.foldl F.add (F.fin 0)

def maxF : List F → F
  | [] => F.nan
  | x :: r => r.foldl F.fmax x

def minF : List F → F
  | [] => F.nan
  | x :: r => r.foldl F.fmin x

/-- `pd.Series(xs).rolling(window=w)` aggregation with the default
`min_periods = w`: missing while fewer than `w` rows exist, and missing
whenever the trailing window contains a missing value. -/
def rollingApply (f : List F → F) (w : Nat) (xs : List F) : List F :=
  (List.range xs.length).map (fun i =>
    if i + 1 < w then F.nan
    else
      let win := (xs.take (i + 1)).drop (i + 1 - w)
      if win.any F.isnan then F.nan else f win)

/-- Validate a rolling window argument (`pandas` rejects non-positive
windows). -/
def windowArg (n : Val) : Except String Nat := do
  let ni ← n.pyInt
  if ni ≤ 0 then .error "ValueError: window must be > 0" else .ok ni.toNat

/-- `FormulaEngine._ma`. -/
def bMA : List Val → Except String Val
  | [x, n] => do
      let xs ← x.asSeries
      let w ← windowArg n
      .ok (.varr (rollingApply (fun win => F.div (sumF win) (F.ofInt w)) w xs))
  | _ => .error "TypeError: arity"

/-- One step of `ewm(span=s, adjust=False).mean()`: the state is the
current average, updated only at non-missing rows; before the first
non-missing row the output is missing.  (Pandas emits the running average
at missing rows.) -/
def emaAux (α : ℚ) : Option F → List F → List F
  | _, [] => []
  | none, x :: r =>
      if x.isnan then F.nan :: emaAux α none r
      else x :: emaAux α (some x) r
  | some s, x :: r =>
      if x.isnan then s :: emaAux α (some s) r
      else
        let s' := F.add (F.mul (F.fin α) x) (F.mul (F.fin (1 - α)) s)
        s' :: emaAux α (some s') r

/-- `FormulaEngine._ema`: `ewm(span=int(period), adjust=False).mean()`. -/
def bEMA : List Val → Except String Val
  | [x, n] => do
      let xs ← x.asSeries
      let s ← n.pyInt
      if s < 1 then .error "ValueError: span must satisfy: span >= 1"
      else .ok (.varr (emaAux (2 / ((s : ℚ) + 1)) none xs))
  | _ => .error "TypeError: arity"

/-- The recursion of `FormulaEngine._sma` after the seed row:
`result[i] = result[i-1]` at missing rows, a re-seed after a missing
previous result, else `(m*x + (n-m)*prev) / n`.  The division by `n` is a
raw Python division: it is NOT guarded against `n = 0`. -/
def smaGo (n m : ℤ) : F → List F → List F
  | _, [] => []
  | prev, x :: r =>
      let cur :=
        if x.isnan then prev
        else if prev.isnan then x
        else F.div (F.add (F.mul (F.ofInt m) x) (F.mul (F.ofInt (n - m)) prev)) (F.ofInt n)
      cur :: smaGo n m cur r

/-- `FormulaEngine._sma` on a float array. -/
def smaF (data : List F) (n m : ℤ) : List F :=
  match data.findIdx? (fun x => !x.isnan) with
  | none => data.map (fun _ => F.nan)
  | some k =>
      let dk := data.getD k F.nan
      List.replicate k F.nan ++ dk :: smaGo n m dk (data.drop (k + 1))

def bSMA : List Val → Except String Val
  | [x, n] => do
      let xs ← x.asNdarray
      let ni ← n.pyInt
      .ok (.varr (smaF xs ni 1))
  | [x, n, m] => do
      let xs ← x.asNdarray
      let ni ← n.pyInt
      let mi ← m.pyInt
      .ok (.varr (smaF xs ni mi))
  | _ => .error "TypeError: arity"

/-- Start index of the Python slice `xs[n:]` for a list of length `L`. -/
def sliceStartIdx (L : Nat) (n : ℤ) : Nat :=
  if 0 ≤ n then min n.toNat L else L - (-n).toNat

/-- The Python slice `xs[:k]`. -/
def pySliceTo (xs : List F) (k : ℤ) : List F :=
  if 0 ≤ k then xs.take k.toNat else xs.take (xs.length - (-k).toNat)

/-- `FormulaEngine._ref`: `result = np.full(len(data), nan)` and, when
`n < len(data)`, the assignment `result[n:] = data[:-n]`.  For `n = 0`
the source `data[:-0]` is the empty slice `data[:0]`, so the assignment is
a numpy broadcast error on any nonempty input. -/
def refF (data : List F) (n : ℤ) : Except String (List F) :=
  let L := data.length
  if n < (L : ℤ) then
    let start := sliceStartIdx L n
    let tgt := L - start
    let src := pySliceTo data (-n)
    if src.length = tgt then .ok (List.replicate start F.nan ++ src)
    else if src.length = 1 then
      .ok (List.replicate start F.nan ++ List.replicate tgt (src.headD F.nan))
    else .error "ValueError: could not broadcast input array"
  else .ok (List.replicate L F.nan)

def bREF : List Val → Except String Val
  | [x, n] => do
      let xs ← x.asNdarray
      let ni ← n.pyInt
      let r ← refF xs ni
      .ok (.varr r)
  | _ => .error "TypeError: arity"

/-- `FormulaEngine._count`: `cond.astype(float)` (an ndarray is required;
a Python scalar has no `astype`) then a rolling sum. -/
def bCOUNT : List Val → Except String Val
  | [cond, n] => do
      let xs ← cond.asNdarray
      let w ← windowArg n
      .ok (.varr (rollingApply sumF w xs))
  | _ => .error "TypeError: arity"

def bSUM : List Val → Except String Val
  | [x, n] => do
      let xs ← x.asSeries
      let w ← windowArg n
      .ok (.varr (rollingApply sumF w xs))
  | _ => .error "TypeError: arity"

def bHHV : List Val → Except String Val
  | [x, n] => do
      let xs ← x.asSeries
      let w ← windowArg n
      .ok (.varr (rollingApply maxF w xs))
  | _ => .error "TypeError: arity"

def bLLV : List Val → Except String Val
  | [x, n] => do
      let xs ← x.asSeries
      let w ← windowArg n
      .ok (.varr (rollingApply minF w xs))
  | _ => .error "TypeError: arity"

/-- Sample standard deviation (`ddof = 1`) of a missing-free window;
`sqrt` is exact on perfect squares (see `F.ratSqrt`). -/
def stdWin (win : List F) : F :=
  if win.length ≤ 1 then F.nan
  else
    let w : ℚ := win.length
    let μ := F.div (sumF win) (F.fin w)
    let dev := sumF (win.map (fun x => F.mul (F.sub x μ) (F.sub x μ)))
    F.fsqrt (F.div dev (F.fin (w - 1)))

def bSTD : List Val → Except String Val
  | [x, n] => do
      let xs ← x.asSeries
      let w ← windowArg n
      .ok (.varr (rollingApply stdWin w xs))
  | _ => .error "TypeError: arity"

/-- Broadcast one operand of `np.where` to a common length: arrays must
have the common length (or length 1), scalars replicate. -/
def bcF (v : Val) (L : Nat) : Except String (List F) :=
  match v.asScalar with
  | some x => .ok (List.replicate L x)
  | none =>
      match v.asArray with
      | some xs =>
          if xs.length = L then .ok xs
          else if xs.length = 1 then .ok (List.replicate L (xs.headD F.nan))
          else .error "ValueError: operands could not be broadcast"
      | none => .error "TypeError: unsupported"

/-- `FormulaEngine._if`: `np.where(cond, val1, val2)`.  An all-scalar call
(numpy's 0-d result) is modelled as a float scalar; boolean branch values
are modelled as 0.0/1.0 floats (value-equivalent under the engine's
truthiness uses). -/
def bIF : List Val → Except String Val
  | [c, a, b] =>
      match c.asScalar, a.asScalar, b.asScalar with
      | some x, some y, some z => .ok (.vfloat (if F.truthy x then y else z))
      | _, _, _ =>
          let L := max ((c.asArray.getD []).length)
                       (max ((a.asArray.getD []).length) ((b.asArray.getD []).length))
          do
            let cs ← bcF c L
            let as_ ← bcF a L
            let bs ← bcF b L
            .ok (.varr (List.zipWith (fun x (yz : F × F) => if F.truthy x then yz.1 else yz.2)
              cs (List.zipWith Prod.mk as_ bs)))
  | _ => .error "TypeError: arity"

def bABS : List Val → Except String Val
  | [.vint n] => .ok (.vint |n|)
  | [x] =>
      match x.asScalar with
      | some v => .ok (.vfloat (F.fabs v))
      | none =>
          match x.asArray with
          | some xs => .ok (.varr (xs.map F.fabs))
          | none => .error "TypeError: unsupported"
  | _ => .error "TypeError: arity"

/-- `np.maximum.reduce(args)` / `np.minimum.reduce(args)`. -/
def reduceWith (f : F → F → F) : List Val → Except String Val
  | [] => .error "TypeError: reduce of empty"
  | v :: rest => rest.foldlM (fun acc w => lift2 f acc w) v

def bMAX : List Val → Except String Val := reduceWith F.fmax
def bMIN : List Val → Except String Val := reduceWith F.fmin

def bSQRT : List Val → Except String Val
  | [x] =>
      match x.asScalar with
      | some v => .ok (.vfloat (F.fsqrt v))
      | none =>
          match x.asArray with
          | some xs => .ok (.varr (xs.map F.fsqrt))
          | none => .error "TypeError: unsupported"
  | _ => .error "TypeError: arity"

def bPOW : List Val → Except String Val
  | [b, e] => lift2 F.fpow b e
  | _ => .error "TypeError: arity"

/-- `FormulaEngine._every`: `COUNT(cond, n) >= n`. -/
def bEVERY : List Val → Except String Val
  | [c, n] => do
      let cnt ← bCOUNT [c, n]
      let ni ← n.pyInt
      liftCmp F.ge cnt (.vint ni)
  | _ => .error "TypeError: arity"

/-- `FormulaEngine._exist`: `COUNT(cond, n) > 0`. -/
def bEXIST : List Val → Except String Val
  | [c, n] => do
      let cnt ← bCOUNT [c, n]
      let _ ← n.pyInt
      liftCmp F.gt cnt (.vint 0)
  | _ => .error "TypeError: arity"

/-- `FormulaEngine._barslast`: rows since the last truthy row (a missing
condition value is truthy in Python, exactly as `if cond[i]:` is). -/
def barslastAux : Option Nat → Nat → List F → List F
  | _, _, [] => []
  | last, i, x :: r =>
      let last' := if F.truthy x then some i else last
      (match last' with
       | some k => F.ofInt ((i : ℤ) - (k : ℤ))
       | none => F.nan) :: barslastAux last' (i + 1) r

def bBARSLAST : List Val → Except String Val
  | [c] => do
      let xs ← c.asNdarray
      .ok (.varr (barslastAux none 0 xs))
  | _ => .error "TypeError: arity"

/-- Bitwise `&` of two bool values (numpy bool arrays / scalars). -/
def vBitAnd (a b : Val) : Except String Val :=
  match a, b with
  | .vbarr xs, .vbarr ys =>
      if xs.length = ys.length then .ok (.vbarr (List.zipWith (· && ·) xs ys))
      else .error "ValueError: operands could not be broadcast"
  | .vbool x, .vbool y => .ok (.vbool (x && y))
  | _, _ => .error "TypeError: unsupported operand for &"

/-- `FormulaEngine._cross`: `(REF(a,1) <= REF(b,1)) & (a > b)`. -/
def bCROSS : List Val → Except String Val
  | [a, b] => do
      let xa ← a.asNdarray
      let xb ← b.asNdarray
      let pa ← refF xa 1
      let pb ← refF xb 1
      let c1 ← liftCmp F.le (.varr pa) (.varr pb)
      let c2 ← liftCmp F.gt a b
      vBitAnd c1 c2
  | _ => .error "TypeError: arity"

/-- `FormulaEngine._crossdown`: `(REF(a,1) >= REF(b,1)) & (a < b)`. -/
def bCROSSDOWN : List Val → Except String Val
  | [a, b] => do
      let xa ← a.asNdarray
      let xb ← b.asNdarray
      let pa ← refF xa 1
      let pb ← refF xb 1
      let c1 ← liftCmp F.ge (.varr pa) (.varr pb)
      let c2 ← liftCmp F.lt a b
      vBitAnd c1 c2
  | _ => .error "TypeError: arity"

/-- `FormulaEngine.functions`: the name → implementation table built in
`__init__`. -/
def functionTable : List (String × (List Val → Except String Val)) :=
  [("MA", bMA), ("EMA", bEMA), ("SMA", bSMA),
   ("REF", bREF),
   ("COUNT", bCOUNT), ("SUM", bSUM), ("HHV", bHHV), ("LLV", bLLV), ("STD", bSTD),
   ("IF", bIF), ("IIF", bIF),
   ("ABS", bABS), ("MAX", bMAX), ("MIN", bMIN), ("SQRT", bSQRT), ("POW", bPOW),
   ("EVERY", bEVERY), ("EXIST", bEXIST), ("BARSLAST", bBARSLAST),
   ("CROSS", bCROSS), ("CROSSDOWN", bCROSSDOWN)]

/-- `FormulaEngine.variables`: identifier aliases → dataframe column. -/
def variablesTable : List (String × String) :=
  [("OPEN", "open"), ("O", "open"),
   ("HIGH", "high"), ("H", "high"),
   ("LOW", "low"), ("L", "low"),
   ("CLOSE", "close"), ("C", "close"),
   ("VOL", "volume"), ("VOLUME", "volume"), ("V", "volume"),
   ("AMOUNT", "amount")]

/-! ### The expression evaluator -/

/-- `FormulaContext`: the bar dataframe (columns by name, ascending by
time) and the variable cache.  A Python dict is an insertion-ordered
association list whose update keeps the original position. -/
structure Ctx where
  df : List (String × List F)
  cache : List (String × Val)
deriving DecidableEq, Repr

/-- Python `d[k] = v`. -/
def dictSet (k : String) (v : Val) : List (String × Val) → List (String × Val)
  | [] => [(k, v)]
  | (k', v') :: rest => if k' = k then (k, v) :: rest else (k', v') :: dictSet k v rest

/-- The case-insensitive linear scan `for key in ctx.cache: if key.upper()
== var_upper` (first hit in insertion order). -/
def ciScan (cache : List (String × Val)) (targetU : String) : Option Val :=
  (cache.find? (fun p => String.mk (upperStr p.1.toList) == targetU)).map Prod.snd

/-- The comparison-operator discovery of `_eval_expr`: the six operators
are tried in order `['>=','<=','!=','>','<','=']` and the first one found
at depth zero splits the expression. -/
def findCmpSplit (expr : List Char) : Option (String × List Char × List Char) :=
  [">=", "<=", "!=", ">", "<", "="].firstM (fun op =>
    (findCmpOpAux op.toList 0 0 none expr).map (fun pos =>
      (op, expr.take pos, expr.drop (pos + op.length))))

/-- `==` / `~(==)` as `_eval_expr` performs them.  A scalar-scalar
comparison produces a Python `bool`, whose `~` is the *integer* bitwise
complement (`~True = -2`, `~False = -1`): faithful for literal operands,
which are Python scalars.  Arrays negate elementwise. -/
def vNe (a b : Val) : Except String Val := do
  match ← liftCmp F.eq a b with
  | .vbool bb => .ok (.vint (if bb then -2 else -1))
  | .vbarr bs => .ok (.vbarr (bs.map (!·)))
  | v => .ok v

def applyCmp (op : String) (l r : Val) : Except String Val :=
  if op = ">=" then liftCmp F.ge l r
  else if op = "<=" then liftCmp F.le l r
  else if op = ">" then liftCmp F.gt l r
  else if op = "<" then liftCmp F.lt l r
  else if op = "!=" then vNe l r
  else liftCmp F.eq l r

/-- The additive / multiplicative split of `_eval_expr`: only attempted
when one of the operator characters occurs at all, and only taken when the
right-to-left scan finds it outside parentheses at a position `> 0`. -/
def arithSplit (ops : List Char) (expr : List Char) : Option (Char × List Char × List Char) :=
  if ops.any (fun o => expr.contains o) then
    match findOpRL ops expr with
    | some pos =>
        if 0 < pos then some (expr.getD pos ' ', expr.take pos, expr.drop (pos + 1))
        else none
    | none => none
  else none

/-- Evaluate a list of sub-expressions left to right, propagating the
first error (Python list comprehension semantics). -/
def evalSeq (ev : List Char → Except Err Val) : List (List Char) → Except Err (List Val)
  | [] => .ok []
  | e :: es => do
      let v ← ev e
      let vs ← evalSeq ev es
      .ok (v :: vs)

/-- `FormulaEngine._eval_expr`, fuel-indexed (the fuel only bounds the
recursion depth of this embedding; any fuel at least the expression length
is sufficient, and fuel exhaustion is classified as a data error). -/
def evalExpr : Nat → List Char → Ctx → Except Err Val
  | 0, _, _ => .error (.data "fuel exhausted")
  | fuel + 1, expr0, ctx =>
      let expr := pyStrip expr0
      match ctx.cache.lookup (String.mk expr) with
      | some v => .ok v
      | none =>
        let exprU := upperStr expr
        if containsStr " AND ".toList exprU then
          match evalSeq (fun e => evalExpr fuel e ctx) (reSplitWord "AND".toList expr) with
          | .error e => .error e
          | .ok rs => (npAll rs).mapError Err.data
        else if containsStr " OR ".toList exprU then
          match evalSeq (fun e => evalExpr fuel e ctx) (reSplitWord "OR".toList expr) with
          | .error e => .error e
          | .ok rs => (npAny rs).mapError Err.data
        else
          match findCmpSplit expr with
          | some (op, l, r) => do
              let lv ← evalExpr fuel l ctx
              let rv ← evalExpr fuel r ctx
              (applyCmp op lv rv).mapError Err.data
          | none =>
            match arithSplit ['+', '-'] expr with
            | some (op, l, r) => do
                let lv ← evalExpr fuel l ctx
                let rv ← evalExpr fuel r ctx
                ((if op == '+' then vAdd lv rv else vSub lv rv)).mapError Err.data
            | none =>
              match arithSplit ['*', '/'] expr with
              | some (op, l, r) => do
                  let lv ← evalExpr fuel l ctx
                  let rv ← evalExpr fuel r ctx
                  (if op == '/' then (vDiv lv (zeroGuard rv)).mapError Err.data
                   else (vMul lv rv).mapError Err.data)
              | none =>
                if expr.head? == some '(' && expr.getLast? == some ')' then
                  evalExpr fuel (expr.drop 1).dropLast ctx
                else
                  match matchFuncCall expr with
                  | some (name, argsStr) =>
                      match evalSeq (fun e => evalExpr fuel e ctx) (splitArgsStr argsStr) with
                      | .error e => .error e
                      | .ok args =>
                          match functionTable.lookup (String.mk (upperStr name)) with
                          | some f => (f args).mapError Err.data
                          | none => .error (.ref ("未知函数: " ++ String.mk (upperStr name)))
                  | none =>
                    match variablesTable.lookup (String.mk exprU) with
                    | some col =>
                        match ctx.df.lookup col with
                        | some xs => .ok (.varr xs)
                        | none => .error (.data ("数据列不存在: " ++ col))
                    | none =>
                      match ctx.cache.lookup (String.mk exprU) with
                      | some v => .ok v
                      | none =>
                        match ctx.cache.lookup (String.mk expr) with
                        | some v => .ok v
                        | none =>
                          match ciScan ctx.cache (String.mk exprU) with
                          | some v => .ok v
                          | none =>
                            if expr.contains '.' then
                              match parseFloatPy expr with
                              | some q => .ok (.vfloat (F.fin q))
                              | none => .error (.ref ("无法解析表达式: " ++ String.mk expr))
                            else
                              match parseIntPy expr with
                              | some n => .ok (.vint n)
                              | none => .error (.ref ("无法解析表达式: " ++ String.mk expr))

/-- The statement loop of `FormulaEngine.parse_and_execute`: an assignment
stores the value under both the original and the uppercased name; a bare
expression just becomes the running result. -/
def execStatements (fuel : Nat) : List (List Char) → Ctx → Option Val → Except Err (Option Val × Ctx)
  | [], ctx, res => .ok (res, ctx)
  | line :: rest, ctx, _ =>
      match splitFirstStr ":=".toList line with
      | some (nm, ex) => do
          let name := pyStrip nm
          let v ← evalExpr fuel (pyStrip ex) ctx
          let cache' := dictSet (String.mk (upperStr name)) v (dictSet (String.mk name) v ctx.cache)
          execStatements fuel rest { ctx with cache := cache' } (some v)
      | none => do
          let v ← evalExpr fuel line ctx
          execStatements fuel rest ctx (some v)

/-- `FormulaEngine.parse_and_execute`: strip `{...}` comments, split on
`;`, run the statements; an empty formula returns `None` without touching
the context. -/
def parseAndExecute (fuel : Nat) (formula : String) (df : List (String × List F)) :
    Except Err (Option Val) :=
  let s := pyStrip (stripComments formula.toList)
  if s.isEmpty then .ok none
  else
    let lines := ((splitOnChar ';' s).map pyStrip).filter (fun l => !l.isEmpty)
    (execStatements fuel lines ⟨df, []⟩ none).map Prod.fst

/-- `FormulaEngine.get_last_value`: the screening truth value.  An ndarray
uses its last element with nan coerced to `False`; any non-array result is
collapsed by Python `bool(...)` — so a nonzero scalar (including a scalar
nan) is `True` and `None` is `False`. -/
def getLastValue : Option Val → Except Err Bool
  | none => .ok false
  | some (.varr xs) =>
      match xs.getLast? with
      | none => .error (.data "IndexError: index -1 out of bounds")
      | some x => if x.isnan then .ok false else .ok (F.truthy x)
  | some (.vbarr bs) =>
      match bs.getLast? with
      | none => .error (.data "IndexError: index -1 out of bounds")
      | some b => .ok b
  | some (.vint n) => .ok (decide (n ≠ 0))
  | some (.vfloat x) => .ok (F.truthy x)
  | some (.vbool b) => .ok b
  | some .vnone => .ok false

/-! ### The screening orchestrator (`src/api/screener.py`) -/

/-- A match at the start of `cs` of the pattern `KEY\s*:=\s*\d+`
(case-insensitive), returning the remainder after the greedy match. -/
def matchKeyAssign (key : List Char) (cs : List Char) : Option (List Char) :=
  match dropCI key cs with
  | none => none
  | some r1 =>
      match r1.dropWhile isWs with
      | ':' :: '=' :: r3 =>
          let r4 := r3.dropWhile isWs
          if (r4.takeWhile Char.isDigit).isEmpty then none
          else some (r4.dropWhile Char.isDigit)
      | _ => none

/-- `re.sub(rf'KEY\s*:=\s*\d+', f'KEY := VALUE', formula, flags=IGNORECASE)`:
global, leftmost, non-overlapping replacement (note: `re.sub` without a
`count` replaces EVERY occurrence). -/
def reSubAux (key repl : List Char) : Nat → List Char → List Char
  | 0, s => s
  | _ + 1, [] => []
  | fuel + 1, c :: cs =>
      match matchKeyAssign key (c :: cs) with
      | some rest => repl ++ reSubAux key repl fuel rest
      | none => c :: reSubAux key repl fuel cs

/-- Does the pattern `KEY\s*:=\s*\d+` occur anywhere in `s`? -/
def hasKeyAssign (key : List Char) : List Char → Bool
  | [] => false
  | c :: cs => (matchKeyAssign key (c :: cs)).isSome || hasKeyAssign key cs

/-- The replacement text `f'{key} := {value}'` (override values are
modelled as integers, as in the preset parameter schemas). -/
def paramRepl (key : String) (value : ℤ) : List Char :=
  key.toList ++ " := ".toList ++ (toString value).toList

/-- `apply_params_to_formula`: one `re.sub` per override, in dict order. -/
def applyParamsToFormula (formula : String) (params : List (String × ℤ)) : String :=
  String.mk (params.foldl
    (fun s kv => reSubAux kv.1.toList (paramRepl kv.1 kv.2) s.length s) formula.toList)

/-- `PRESET_STRATEGIES`: id ↦ (formula text, data_days). -/
def presetStrategies : List (String × String × ℕ) :=
  [("volume_contraction",
    ("\nN := 120;\nVOL120 := MA(VOL, N);\nCOND1 := VOL > VOL120;\nCOND2 := COUNT(COND1, 5) >= 3;\n黄金地量 := VOL < 0.3 * VOL120;\n地量信号 := VOL < 0.8 * VOL120 OR 黄金地量;\n选股 := 地量信号 AND REF(COND2, 1) AND REF(COUNT(COND1, 5) >= 3, 1);\n", 150)),
   ("golden_cross_macd",
    ("\nEMA12 := EMA(CLOSE, 12);\nEMA26 := EMA(CLOSE, 26);\nDIF := EMA12 - EMA26;\nDEA := EMA(DIF, 9);\n选股 := CROSS(DIF, DEA) AND DIF < 0;\n", 60)),
   ("breakout_volume",
    ("\nN := 20;\nVOL_MA := MA(VOL, 5);\nHIGH_N := HHV(HIGH, N);\n选股 := CLOSE > REF(HIGH_N, 1) AND VOL > 2 * VOL_MA;\n", 60)),
   ("ma_support",
    ("\nN := 20;\nMA_N := MA(CLOSE, N);\n选股 := LOW < MA_N AND CLOSE > MA_N AND CLOSE > OPEN;\n", 150)),
   ("oversold_rsi",
    ("\nN := 14;\nLC := REF(CLOSE, 1);\nDIFF := CLOSE - LC;\nUP := IF(DIFF > 0, DIFF, 0);\nDN := IF(DIFF < 0, ABS(DIFF), 0);\nSUMUP := SMA(UP, N, 1);\nSUMDN := SMA(DN, N, 1);\nRSI := SUMUP / (SUMUP + SUMDN) * 100;\n选股 := REF(RSI, 1) < 30 AND RSI > REF(RSI, 1);\n", 60)),
   ("kdj_golden_cross",
    ("\nN := 9;\nRSV := (CLOSE - LLV(LOW, N)) / (HHV(HIGH, N) - LLV(LOW, N)) * 100;\nK := SMA(RSV, 3, 1);\nD := SMA(K, 3, 1);\n选股 := CROSS(K, D) AND K < 50;\n", 60))]

/-- The synthetic validation dataframe of `run_screener`: 50 constant
rows. -/
def testDf : List (String × List F) :=
  [("open", List.replicate 50 (F.fin 1)),
   ("high", List.replicate 50 (F.fin 1)),
   ("low", List.replicate 50 (F.fin 1)),
   ("close", List.replicate 50 (F.fin 1)),
   ("volume", List.replicate 50 (F.fin 1000)),
   ("amount", List.replicate 50 (F.fin 10000))]

/-- One entry of `_screener_status["results"]`. -/
structure ScreenResult where
  code : String
  name : String
  market : String
  industry : String
  close : F
  change_pct : F
  volume : ℤ
  trade_date : String
deriving DecidableEq, Repr

/-- The `_screener_status` global dict. -/
structure ScrStatus where
  is_running : Bool
  started_at : Option String
  total : ℕ
  processed : ℕ
  matched : ℕ
  results : List ScreenResult
  strategy : Option String
  formula : Option String
  error : Option String
deriving DecidableEq, Repr

/-- The body of a `POST /screener/run` request. -/
structure RunReq where
  strategy_id : Option String
  formula : Option String
  params : Option (List (String × ℤ))
  market : Option String
deriving DecidableEq, Repr

/-- The observable outcome of `run_screener`. -/
inductive RunResp where
  | conflict (snapshot : ScrStatus)
  | unknownStrategy (sid : String)
  | missingArgs
  | formulaError (e : Err)
  | started (strategy_id : String) (formula : String) (data_days : ℕ) (market : Option String)
deriving DecidableEq, Repr

/-- Python truthiness of an optional string field (an empty string is
falsy). -/
def strVal : Option String → Option String
  | some "" => none
  | o => o

/-- `run_screener`: the conflict check comes first and returns with no
mutation; otherwise the formula is resolved, parameters applied, and the
smoke test run against `testDf` before the background task is scheduled.
The endpoint itself never mutates `_screener_status` (all mutation happens
inside the background task `_run_formula_screener`). -/
def runScreenerEndpoint (fuel : ℕ) (st : ScrStatus) (req : RunReq) : ScrStatus × RunResp :=
  if st.is_running then (st, .conflict st)
  else
    let resolved : Except RunResp (String × String × ℕ) :=
      match strVal req.strategy_id with
      | some sid =>
          match presetStrategies.lookup sid with
          | some (f, dd) => .ok (sid, f, dd)
          | none => .error (.unknownStrategy sid)
      | none =>
          match strVal req.formula with
          | some f => .ok ("custom", f, 150)
          | none => .error .missingArgs
    match resolved with
    | .error r => (st, r)
    | .ok (sid, f, dd) =>
        let f1 :=
          match req.params with
          | some ps => if ps.isEmpty then f else applyParamsToFormula f ps
          | none => f
        match parseAndExecute fuel f1 testDf with
        | .error e => (st, .formulaError e)
        | .ok _ => (st, .started sid f1 dd req.market)

/-- The per-security outcome inside `_run_formula_screener`'s loop:
skipped for insufficient bars, absorbed evaluation error, no match, or a
match appending one result row. -/
inductive SecOutcome where
  | insufficient
  | evalError
  | nomatch
  | matched (r : ScreenResult)
deriving DecidableEq, Repr

def applyOutcome (st : ScrStatus) : SecOutcome → ScrStatus
  | .insufficient => st
  | .evalError => st
  | .nomatch => st
  | .matched r =>
      { st with results := st.results ++ [r], matched := st.matched + 1 }

/-- The `for i, stock in enumerate(stocks)` loop.  `cancelled i` models
the `is_running` flag having been cleared (by the stop endpoint) when
iteration `i` performs its check.  The emitted list contains the state at
every `await` inside the loop (the per-security kline query, and the
periodic `asyncio.sleep` after every 100th security) — the only points
where a reader coroutine can observe `_screener_status` mid-loop. -/
def runLoop (cancelled : ℕ → Bool) : List SecOutcome → ℕ → ScrStatus → List ScrStatus × ScrStatus
  | [], _, st => ([], st)
  | o :: rest, i, st =>
      if cancelled i then ([], st)
      else
        let stA := { st with processed := i + 1 }
        let stB := applyOutcome stA o
        let (snaps, last) := runLoop cancelled rest (i + 1) stB
        (stA :: ((if (i + 1) % 100 = 0 then [stB] else []) ++ snaps), last)

/-- `_run_formula_screener`: reset the status fields (synchronously — no
reader can interleave before the first `await`), publish `total` after the
universe query, run the loop, and clear `is_running` in the `finally`.
The returned list holds every observable snapshot: the post-reset state
(readable while the universe query is awaited, `total` still the previous
run's), each in-loop await point, and the final state. -/
def runFormulaScreener (st0 : ScrStatus) (strategy_id formula : String)
    (stocks : List SecOutcome) (cancelled : ℕ → Bool) :
    List ScrStatus × ScrStatus :=
  let st1 := { st0 with is_running := true, started_at := some "today",
                        processed := 0, matched := 0, results := [],
                        strategy := some strategy_id, formula := some formula,
                        error := none }
  let st2 := { st1 with total := stocks.length }
  let r := runLoop cancelled stocks 0 st2
  let fin := { r.2 with is_running := false }
  (st1 :: (r.1 ++ [fin]), fin)

/-! ## Claims -/

/-- Claim C4, counterexample.  The claim quantifies over every `N ≥ 0`,
but at `N = 0` the assignment `result[0:] = data[:-0]` writes the empty
slice `data[:0]` into a length-1 target, which is a numpy broadcast
error — not the identity shift the claim implies. -/
theorem claim_C4_counterexample :
    refF [F.fin 1] 0 = .error "ValueError: could not broadcast input array" ∧
    bREF [.varr [F.fin 1], .vint 0] =
      .error "ValueError: could not broadcast input array" := by
  constructor <;> rfl

/-- Claim C4 (amended): for every numeric array `x` and every integer
`N ≥ 1` (not `N ≥ 0`: `N = 0` raises a broadcast error, see the
counterexample), `REF(x,N)[i] = x[i-N]` for `N ≤ i < len x` and
`REF(x,N)[i]` is the missing sentinel for `i < N`. -/
theorem claim_C4 (x : List F) (n : ℕ) (hn : 1 ≤ n) :
    ∃ r, refF x (n : ℤ) = .ok r ∧ r.length = x.length ∧
      (∀ i, i < n → i < x.length → r[i]? = some F.nan) ∧
      (∀ i, n ≤ i → i < x.length → r[i]? = x[i - n]?) := by
  by_cases h : (n : ℤ) < (x.length : ℤ)
  · have hnL : n < x.length := by exact_mod_cast h
    have hstart : sliceStartIdx x.length (n : ℤ) = n := by
      simp [sliceStartIdx, Int.toNat_natCast, Nat.min_eq_left (Nat.le_of_lt hnL)]
    have hsrc : pySliceTo x (-(n : ℤ)) = x.take (x.length - n) := by
      have h0 : ¬ (0 : ℤ) ≤ -(n : ℤ) := by omega
      simp [pySliceTo, h0]
    refine ⟨List.replicate n F.nan ++ x.take (x.length - n), ?_, ?_, ?_, ?_⟩
    · simp only [refF, if_pos h, hstart, hsrc]
      have hlen : (x.take (x.length - n)).length = x.length - n := by
        simp [List.length_take, Nat.sub_le]
      simp [hlen]
    · simp [List.length_take, Nat.le_of_lt hnL]
    · intro i hi _
      rw [List.getElem?_append_left (by simpa using hi)]
      simp [hi]
    · intro i hni hiL
      rw [List.getElem?_append_right (by simpa using hni)]
      simp only [List.length_replicate]
      rw [List.getElem?_take_of_lt (by omega : i - n < x.length - n)]
  · have hnL : x.length ≤ n := by omega
    refine ⟨List.replicate x.length F.nan, ?_, by simp, ?_, ?_⟩
    · simp only [refF, if_neg h]
    · intro i _ hiL
      simp [hiL]
    · intro i hni hiL
      omega

/-- Claim C4 witness: `REF([5,7],1)` computed through the amended
theorem. -/
theorem claim_C4_witness :
    ∃ r, refF [F.fin 5, F.fin 7] ((1 : ℕ) : ℤ) = .ok r ∧
      r.length = [F.fin 5, F.fin 7].length ∧
      (∀ i, i < 1 → i < [F.fin 5, F.fin 7].length → r[i]? = some F.nan) ∧
      (∀ i, 1 ≤ i → i < [F.fin 5, F.fin 7].length →
        r[i]? = [F.fin 5, F.fin 7][i - 1]?) :=
  claim_C4 [F.fin 5, F.fin 7] 1 (by decide)

/-- Claim C10: a non-array final value is collapsed by Python truthiness:
the literal program `1` evaluates to the Python int `1` on *any*
dataframe and matches; any nonzero int matches; `0` does not; a scalar
nan matches (Python `bool(nan)` is true); an empty or comment-only
program yields `None`, which matches nothing; and nan-to-false coercion
applies only to the array case (an array ending in nan is no match). -/
theorem claim_C10 :
    (∀ fuel df, parseAndExecute (fuel + 1) "1" df = .ok (some (.vint 1))) ∧
    (∀ n : ℤ, n ≠ 0 → getLastValue (some (.vint n)) = .ok true) ∧
    getLastValue (some (.vint 0)) = .ok false ∧
    getLastValue (some (.vfloat F.nan)) = .ok true ∧
    (∀ fuel df, parseAndExecute fuel "" df = .ok none) ∧
    (∀ fuel df, parseAndExecute fuel "\x7bonly a comment\x7d" df = .ok none) ∧
    getLastValue none = .ok false ∧
    (∀ xs, getLastValue (some (.varr (xs ++ [F.nan]))) = .ok false) := by
  refine ⟨fun fuel df => rfl, fun n hn => by simp [getLastValue, hn], rfl, rfl,
    fun fuel df => rfl, fun fuel df => rfl, rfl, fun xs => ?_⟩
  simp [getLastValue, List.getLast?_concat, F.isnan]

/-- Claim C10 witness: the truthiness branch applied at the concrete
nonzero scalar 7. -/
theorem claim_C10_witness : getLastValue (some (.vint 7)) = .ok true :=
  claim_C10.2.1 7 (by decide)

/-- Helper for C6: a text with no occurrence of the pattern is returned
unchanged by the substitution scan. -/
theorem reSubAux_of_not_hasKeyAssign (key repl : List Char) :
    ∀ (fuel : ℕ) (s : List Char), hasKeyAssign key s = false →
      reSubAux key repl fuel s = s := by
  intro fuel
  induction fuel with
  | zero => intro s _; rfl
  | succ n ih =>
      intro s hs
      cases s with
      | nil => rfl
      | cons c cs =>
          simp only [hasKeyAssign, Bool.or_eq_false_iff] at hs
          cases hm : matchKeyAssign key (c :: cs) with
          | some r =>
              rw [hm] at hs
              simp at hs
          | none =>
              simp only [reSubAux, hm]
              rw [ih cs hs.2]

/-- Claim C6, counterexample.  `re.sub` is called without `count=1`, so it
replaces *every* assignment `N := <int>`, not only the first: on
`"N := 1; N := 2"` with override `N = 7` the code produces
`"N := 7; N := 7"`, whereas the claim predicts `"N := 7; N := 2"`. -/
theorem claim_C6_counterexample :
    applyParamsToFormula "N := 1; N := 2" [("N", 7)] = "N := 7; N := 7" ∧
    applyParamsToFormula "N := 1; N := 2" [("N", 7)] ≠ "N := 7; N := 2" := by
  constructor
  · rfl
  · decide

/-- Claim C6 (amended): parameter substitution textually replaces *every*
occurrence of `K := <integer literal>` (leftmost, non-overlapping,
case-insensitive substring matches) with `K := V` — shown for a formula
carrying two assignments to `K`, for every override value — and leaves the
formula unchanged for overridden names with no such occurrence. -/
theorem claim_C6 :
    (∀ v : ℤ, applyParamsToFormula "N := 1; N := 2" [("N", v)] =
      String.mk (paramRepl "N" v ++ (';' :: ' ' :: paramRepl "N" v))) ∧
    (∀ (key : String) (v : ℤ) (formula : String),
      hasKeyAssign key.toList formula.toList = false →
      applyParamsToFormula formula [(key, v)] = formula) := by
  constructor
  · intro v
    have h2 : ∀ repl : List Char,
        reSubAux "N".toList repl "N := 1; N := 2".toList.length "N := 1; N := 2".toList
          = repl ++ ';' :: ' ' :: (repl ++ []) := fun repl => rfl
    simp only [applyParamsToFormula, List.foldl, h2, List.append_nil]
  · intro key v formula h
    simp only [applyParamsToFormula, List.foldl]
    rw [reSubAux_of_not_hasKeyAssign _ _ _ _ h]
    rfl

/-- Claim C6 witness: an override whose name has no integer assignment in
the text leaves the formula untouched. -/
theorem claim_C6_witness : applyParamsToFormula "X := 1" [("N", 7)] = "X := 1" :=
  claim_C6.2 "N" 7 "X := 1" (by decide)

/-- Claim C3: a start-run request while a run is Running returns the
conflict response immediately and performs no state mutation — the status
record is returned exactly as it was (the endpoint itself never mutates
the global status; mutation only happens inside a scheduled background
task, which a conflicting request never schedules). -/
theorem claim_C3 (fuel : ℕ) (st : ScrStatus) (req : RunReq)
    (h : st.is_running = true) :
    runScreenerEndpoint fuel st req = (st, .conflict st) := by
  simp [runScreenerEndpoint, h]

/-- Claim C3 witness: a concrete Running status with mid-run counters. -/
theorem claim_C3_witness :
    runScreenerEndpoint 5 ⟨true, some "d", 10, 4, 2, [], some "x", some "1", none⟩
        ⟨none, some "1", none, none⟩ =
      (⟨true, some "d", 10, 4, 2, [], some "x", some "1", none⟩,
       .conflict ⟨true, some "d", 10, 4, 2, [], some "x", some "1", none⟩) :=
  claim_C3 5 _ _ rfl

/-- The internal consistency of a status snapshot. -/
def counterInv (s : ScrStatus) : Prop :=
  s.processed ≤ s.total ∧ s.matched ≤ s.processed

theorem applyOutcome_processed (st : ScrStatus) (o : SecOutcome) :
    (applyOutcome st o).processed = st.processed := by
  cases o <;> rfl

theorem applyOutcome_total (st : ScrStatus) (o : SecOutcome) :
    (applyOutcome st o).total = st.total := by
  cases o <;> rfl

theorem applyOutcome_matched (st : ScrStatus) (o : SecOutcome) :
    (applyOutcome st o).matched ≤ st.matched + 1 := by
  cases o <;> simp [applyOutcome]

/-- Loop invariant for `_run_formula_screener`'s per-security loop: with
`processed = i`, `matched ≤ i` and enough room in `total`, every snapshot
emitted at an await point is internally consistent, and so is the loop's
final state (counters and `total` are also characterised for the caller). -/
theorem runLoop_inv (cancelled : ℕ → Bool) :
    ∀ (stocks : List SecOutcome) (i : ℕ) (st : ScrStatus),
      st.processed = i → st.matched ≤ i → i + stocks.length ≤ st.total →
      (∀ s ∈ (runLoop cancelled stocks i st).1, counterInv s) ∧
      counterInv (runLoop cancelled stocks i st).2 ∧
      (runLoop cancelled stocks i st).2.total = st.total := by
  intro stocks
  induction stocks with
  | nil =>
      intro i st hp hm _
      refine ⟨by simp [runLoop], ⟨?_, ?_⟩, rfl⟩ <;> simp [runLoop] <;> omega
  | cons o rest ih =>
      intro i st hp hm hroom
      by_cases hc : cancelled i = true
      · refine ⟨by simp [runLoop, hc], ⟨?_, ?_⟩, by simp [runLoop, hc]⟩ <;>
          simp [runLoop, hc] <;> omega
      · have hc' : cancelled i = false := by simpa using hc
        simp only [runLoop, hc', Bool.false_eq_true, if_false]
        set stA : ScrStatus := { st with processed := i + 1 } with hA
        set stB := applyOutcome stA o with hB
        have hlen : i + (o :: rest).length = i + rest.length + 1 := by
          simp [List.length_cons]; omega
        have hBp : stB.processed = i + 1 := by
          rw [hB, applyOutcome_processed]
        have hBt : stB.total = st.total := by
          rw [hB, applyOutcome_total]
        have hBm : stB.matched ≤ i + 1 := by
          have := applyOutcome_matched stA o
          rw [← hB] at this
          have : stB.matched ≤ st.matched + 1 := this
          omega
        have hrec := ih (i + 1) stB hBp hBm (by rw [hBt]; omega)
        have hinvA : counterInv stA := by
          constructor
          · show i + 1 ≤ st.total
            omega
          · show st.matched ≤ i + 1
            omega
        have hinvB : counterInv stB := by
          refine ⟨?_, ?_⟩
          · rw [hBp, hBt]; omega
          · rw [hBp]; exact hBm
        refine ⟨?_, hrec.2.1, by rw [hrec.2.2, hBt]⟩
        intro s hs
        simp only [List.mem_cons, List.mem_append] at hs
        rcases hs with h1 | h2 | h3
        · rw [h1]; exact hinvA
        · by_cases hmod : (i + 1) % 100 = 0
          · simp only [if_pos hmod, List.mem_singleton] at h2
            rw [h2]; exact hinvB
          · simp only [if_neg hmod] at h2
            simp at h2
        · exact hrec.1 s h3

/-- Claim C8: at every observable snapshot of a screening run — the
post-reset state readable while the universe query is in flight, every
in-loop await point (whether the run later completes or is cancelled),
and the final published state — the counters satisfy
`processed ≤ total` and `matched ≤ processed`. -/
theorem claim_C8 (st0 : ScrStatus) (sid f : String) (stocks : List SecOutcome)
    (cancelled : ℕ → Bool) (s : ScrStatus)
    (hs : s ∈ (runFormulaScreener st0 sid f stocks cancelled).1) :
    s.processed ≤ s.total ∧ s.matched ≤ s.processed := by
  have hloop := runLoop_inv cancelled stocks 0
    { st0 with is_running := true, started_at := some "today",
               processed := 0, matched := 0, results := [],
               strategy := some sid, formula := some f, error := none,
               total := stocks.length }
    rfl (Nat.le_refl 0) (by simp)
  simp only [runFormulaScreener, List.mem_cons, List.mem_append,
    List.mem_singleton] at hs
  rcases hs with h1 | h2 | h3 | h4
  · rw [h1]
    exact ⟨Nat.zero_le _, Nat.le_refl 0⟩
  · exact hloop.1 s h2
  · rw [h3]
    exact hloop.2.1
  · simp at h4

/-- Claim C8 witness: a concrete cancelled-mid-run trace (three stocks,
one match, cancellation observed at iteration 2); the final state is among
the observable snapshots. -/
theorem claim_C8_witness :
    (⟨false, some "today", 3, 2, 1,
      [⟨"c", "n", "m", "i", F.fin 1, F.fin 0, 5, "d"⟩], some "custom", some "1", none⟩ : ScrStatus).processed ≤
      (⟨false, some "today", 3, 2, 1,
        [⟨"c", "n", "m", "i", F.fin 1, F.fin 0, 5, "d"⟩], some "custom", some "1", none⟩ : ScrStatus).total ∧
    (⟨false, some "today", 3, 2, 1,
      [⟨"c", "n", "m", "i", F.fin 1, F.fin 0, 5, "d"⟩], some "custom", some "1", none⟩ : ScrStatus).matched ≤
      (⟨false, some "today", 3, 2, 1,
        [⟨"c", "n", "m", "i", F.fin 1, F.fin 0, 5, "d"⟩], some "custom", some "1", none⟩ : ScrStatus).processed :=
  claim_C8 ⟨false, none, 0, 0, 0, [], none, none, none⟩ "custom" "1"
    [.nomatch, .matched ⟨"c", "n", "m", "i", F.fin 1, F.fin 0, 5, "d"⟩, .nomatch]
    (fun i => i == 2) _ (by decide)

/-- Claim C9: additive chains evaluate left-associatively.  The two
evaluations agree *unconditionally* (the right-to-left split makes
`a-b-c` and `(a-b)-c` the same evaluation tree), and under equal lengths
the value is the elementwise `(a-b)-c`. -/
theorem claim_C9 (fuel : ℕ) (df : List (String × List F)) (a b c : List F) :
    evalExpr (fuel + 4) "a-b-c".toList
        ⟨df, [("a", .varr a), ("b", .varr b), ("c", .varr c)]⟩ =
      evalExpr (fuel + 4) "(a-b)-c".toList
        ⟨df, [("a", .varr a), ("b", .varr b), ("c", .varr c)]⟩ ∧
    (b.length = a.length → c.length = a.length →
      evalExpr (fuel + 4) "a-b-c".toList
          ⟨df, [("a", .varr a), ("b", .varr b), ("c", .varr c)]⟩ =
        .ok (.varr (List.zipWith F.sub (List.zipWith F.sub a b) c))) := by
  constructor
  · rfl
  · intro h1 h2
    have hab : vSub (.varr a) (.varr b) = .ok (.varr (List.zipWith F.sub a b)) := by
      simp [vSub, lift2, Val.asScalar, Val.asArray, h1]
    have hbc : vSub (.varr (List.zipWith F.sub a b)) (.varr c) =
        .ok (.varr (List.zipWith F.sub (List.zipWith F.sub a b) c)) := by
      simp [vSub, lift2, Val.asScalar, Val.asArray, List.length_zipWith, h1, h2]
    have key : evalExpr (fuel + 4) "a-b-c".toList
        ⟨df, [("a", .varr a), ("b", .varr b), ("c", .varr c)]⟩ =
        (do
          let lv ← (vSub (.varr a) (.varr b)).mapError Err.data
          let rv ← (.ok (.varr c) : Except Err Val)
          (vSub lv rv).mapError Err.data) := rfl
    rw [key, hab]
    show (vSub (.varr (List.zipWith F.sub a b)) (.varr c)).mapError Err.data = _
    rw [hbc]
    rfl

/-- Claim C9 witness: `[10,5,1]-[1,1,1]-[2,2,2]` through the theorem. -/
theorem claim_C9_witness :
    evalExpr (0 + 4) "a-b-c".toList
        ⟨[], [("a", .varr [F.fin 10, F.fin 5, F.fin 1]),
              ("b", .varr [F.fin 1, F.fin 1, F.fin 1]),
              ("c", .varr [F.fin 2, F.fin 2, F.fin 2])]⟩ =
      .ok (.varr (List.zipWith F.sub
        (List.zipWith F.sub [F.fin 10, F.fin 5, F.fin 1] [F.fin 1, F.fin 1, F.fin 1])
        [F.fin 2, F.fin 2, F.fin 2])) :=
  (claim_C9 0 [] [F.fin 10, F.fin 5, F.fin 1] [F.fin 1, F.fin 1, F.fin 1]
    [F.fin 2, F.fin 2, F.fin 2]).2 (by decide) (by decide)

theorem zipWith_or_replicate_false (x : List Bool) :
    List.zipWith (· || ·) (List.replicate x.length false) x = x := by
  induction x with
  | nil => rfl
  | cons y ys ih => simp [List.replicate_succ, ih]

theorem zipWith_and_replicate_true (x : List Bool) :
    List.zipWith (· && ·) (List.replicate x.length true) x = x := by
  induction x with
  | nil => rfl
  | cons y ys ih => simp [List.replicate_succ, ih]

/-- `np.any([x, y], axis=0)` on two equal-length bool arrays. -/
theorem npAny_two_barr (x y : List Bool) (h : y.length = x.length) :
    npAny [.vbarr x, .vbarr y] = .ok (.vbarr (List.zipWith (· || ·) x y)) := by
  simp [npAny, npReduce, truthyRow, Val.asScalar, truthyArr, h,
    zipWith_or_replicate_false]

/-- `np.all([x, y], axis=0)` on two equal-length bool arrays. -/
theorem npAll_two_barr (x y : List Bool) (h : y.length = x.length) :
    npAll [.vbarr x, .vbarr y] = .ok (.vbarr (List.zipWith (· && ·) x y)) := by
  simp [npAll, npReduce, truthyRow, Val.asScalar, truthyArr, h,
    zipWith_and_replicate_true]

/-- Claim C1, counterexample.  On the one-row bool arrays
`a = [true], b = [false], c = [false]` bound in the context, the engine
evaluates `a OR b AND c` to `[(a OR b) AND c] = [false]`, while the claim
predicts `[a OR (b AND c)] = [true]`: the evaluator checks AND *before*
OR, inverting the claimed precedence. -/
theorem claim_C1_counterexample :
    evalExpr 20 "a OR b AND c".toList
        ⟨[], [("a", .vbarr [true]), ("b", .vbarr [false]), ("c", .vbarr [false])]⟩ =
      .ok (.vbarr [false]) ∧
    (Val.vbarr [false] ≠ Val.vbarr [true || (false && false)]) := by
  constructor
  · rfl
  · decide

/-- Claim C1 (amended): the engine gives logical AND the *lower*
precedence: for all equal-length bool arrays `a, b, c` bound in the
context, `a OR b AND c` evaluates at every row to `(a[i] OR b[i]) AND
c[i]`, because `_eval_expr` splits at `AND` before it looks for `OR`. -/
theorem claim_C1 (fuel : ℕ) (df : List (String × List F)) (a b c : List Bool)
    (hba : b.length = a.length) (hca : c.length = a.length) :
    evalExpr (fuel + 3) "a OR b AND c".toList
        ⟨df, [("a", .vbarr a), ("b", .vbarr b), ("c", .vbarr c)]⟩ =
      .ok (.vbarr (List.zipWith (· && ·) (List.zipWith (· || ·) a b) c)) := by
  have hOr : evalExpr (fuel + 2) "a OR b".toList
      ⟨df, [("a", .vbarr a), ("b", .vbarr b), ("c", .vbarr c)]⟩ =
      (npAny [.vbarr a, .vbarr b]).mapError Err.data := rfl
  have key : evalExpr (fuel + 3) "a OR b AND c".toList
      ⟨df, [("a", .vbarr a), ("b", .vbarr b), ("c", .vbarr c)]⟩ =
      (match evalSeq (fun e => evalExpr (fuel + 2) e
          ⟨df, [("a", .vbarr a), ("b", .vbarr b), ("c", .vbarr c)]⟩)
          ["a OR b".toList, "c".toList] with
       | .error e => .error e
       | .ok rs => (npAll rs).mapError Err.data) := rfl
  have hseq : evalSeq (fun e => evalExpr (fuel + 2) e
      ⟨df, [("a", .vbarr a), ("b", .vbarr b), ("c", .vbarr c)]⟩)
      ["a OR b".toList, "c".toList] =
      .ok [.vbarr (List.zipWith (· || ·) a b), .vbarr c] := by
    show (do
      let v ← evalExpr (fuel + 2) "a OR b".toList
        ⟨df, [("a", .vbarr a), ("b", .vbarr b), ("c", .vbarr c)]⟩
      let vs ← evalSeq (fun e => evalExpr (fuel + 2) e
        ⟨df, [("a", .vbarr a), ("b", .vbarr b), ("c", .vbarr c)]⟩) ["c".toList]
      (.ok (v :: vs) : Except Err (List Val))) = _
    rw [hOr, npAny_two_barr a b hba]
    rfl
  rw [key, hseq]
  show (npAll [.vbarr (List.zipWith (· || ·) a b), .vbarr c]).mapError Err.data = _
  rw [npAll_two_barr (List.zipWith (· || ·) a b) c
    (by simp [List.length_zipWith, hba, hca])]
  rfl

/-- Claim C1 witness: the amended precedence evaluated at
`a = [true], b = [false], c = [true]`. -/
theorem claim_C1_witness :
    evalExpr (0 + 3) "a OR b AND c".toList
        ⟨[], [("a", .vbarr [true]), ("b", .vbarr [false]), ("c", .vbarr [true])]⟩ =
      .ok (.vbarr (List.zipWith (· && ·)
        (List.zipWith (· || ·) [true] [false]) [true])) :=
  claim_C1 0 [] [true] [false] [true] (by decide) (by decide)

/-- Row extraction from a zipWith when one operand is nan and the
operation is constant on nan. -/
theorem zipWith_nan_row {γ : Type} (f : F → F → γ) (v : γ)
    (hf1 : ∀ y, f F.nan y = v) (hf2 : ∀ x, f x F.nan = v)
    (a b : List F) (hlen : b.length = a.length) (i : ℕ) (hi : i < a.length)
    (hnan : a[i]? = some F.nan ∨ b[i]? = some F.nan) :
    (List.zipWith f a b)[i]? = some v := by
  have hib : i < b.length := by omega
  rw [List.getElem?_zipWith']
  rcases hnan with h | h
  · rw [h, List.getElem?_eq_getElem hib]
    simp [hf1]
  · rw [List.getElem?_eq_getElem hi, h]
    simp [hf2]

theorem F.add_nan_left (y : F) : F.add F.nan y = F.nan := by cases y <;> rfl
theorem F.add_nan_right (x : F) : F.add x F.nan = F.nan := by cases x <;> rfl
theorem F.sub_nan_left (y : F) : F.sub F.nan y = F.nan := by cases y <;> rfl
theorem F.sub_nan_right (x : F) : F.sub x F.nan = F.nan := by cases x <;> rfl
theorem F.mul_nan_left (y : F) : F.mul F.nan y = F.nan := by cases y <;> rfl
theorem F.mul_nan_right (x : F) : F.mul x F.nan = F.nan := by cases x <;> rfl
theorem F.div_nan_left (y : F) : F.div F.nan y = F.nan := by cases y <;> rfl
theorem F.div_nan_right (x : F) : F.div x F.nan = F.nan := by cases x <;> rfl
theorem F.le_nan_left (y : F) : F.le F.nan y = false := by cases y <;> rfl
theorem F.le_nan_right (x : F) : F.le x F.nan = false := by cases x <;> rfl
theorem F.lt_nan_left (y : F) : F.lt F.nan y = false := by cases y <;> rfl
theorem F.lt_nan_right (x : F) : F.lt x F.nan = false := by cases x <;> rfl
theorem F.eq_nan_left (y : F) : F.eq F.nan y = false := by cases y <;> rfl
theorem F.eq_nan_right (x : F) : F.eq x F.nan = false := by cases x <;> rfl
theorem F.ge_nan_left (y : F) : F.ge F.nan y = false := F.le_nan_right y
theorem F.ge_nan_right (x : F) : F.ge x F.nan = false := F.le_nan_left x
theorem F.gt_nan_left (y : F) : F.gt F.nan y = false := F.lt_nan_right y
theorem F.gt_nan_right (x : F) : F.gt x F.nan = false := F.lt_nan_left x

/-- Claim C7, counterexample.  Comparisons do *not* propagate the missing
sentinel: with `a = [nan]`, `b = [0]`, the engine evaluates `a >= b` to
the boolean row `[false]` — a bool array has no missing value at all —
where the claim requires missing at that row. -/
theorem claim_C7_counterexample :
    evalExpr 20 "a >= b".toList
        ⟨[], [("a", .varr [F.nan]), ("b", .varr [F.fin 0])]⟩ =
      .ok (.vbarr [false]) ∧
    (Val.vbarr [false] ≠ Val.varr [F.nan]) := by
  constructor
  · rfl
  · decide

/-- Claim C7 (amended): the four elementwise arithmetic operators
propagate missing; the elementwise comparisons never produce missing —
at a row where either operand is missing, `>=`, `<=`, `>`, `<`, `=`
yield `false` and `!=` yields `true`; and the missing sentinel is coerced
to an ordinary boolean at the final match decision when the final result
is an array. -/
theorem claim_C7 (fuel : ℕ) (df : List (String × List F)) (a b : List F)
    (hlen : b.length = a.length) (i : ℕ) (hi : i < a.length)
    (hnan : a[i]? = some F.nan ∨ b[i]? = some F.nan) :
    (∃ r, evalExpr (fuel + 2) "a + b".toList ⟨df, [("a", .varr a), ("b", .varr b)]⟩ =
      .ok (.varr r) ∧ r[i]? = some F.nan) ∧
    (∃ r, evalExpr (fuel + 2) "a - b".toList ⟨df, [("a", .varr a), ("b", .varr b)]⟩ =
      .ok (.varr r) ∧ r[i]? = some F.nan) ∧
    (∃ r, evalExpr (fuel + 2) "a * b".toList ⟨df, [("a", .varr a), ("b", .varr b)]⟩ =
      .ok (.varr r) ∧ r[i]? = some F.nan) ∧
    (∃ r, evalExpr (fuel + 2) "a / b".toList ⟨df, [("a", .varr a), ("b", .varr b)]⟩ =
      .ok (.varr r) ∧ r[i]? = some F.nan) ∧
    (∃ r, evalExpr (fuel + 2) "a >= b".toList ⟨df, [("a", .varr a), ("b", .varr b)]⟩ =
      .ok (.vbarr r) ∧ r[i]? = some false) ∧
    (∃ r, evalExpr (fuel + 2) "a <= b".toList ⟨df, [("a", .varr a), ("b", .varr b)]⟩ =
      .ok (.vbarr r) ∧ r[i]? = some false) ∧
    (∃ r, evalExpr (fuel + 2) "a > b".toList ⟨df, [("a", .varr a), ("b", .varr b)]⟩ =
      .ok (.vbarr r) ∧ r[i]? = some false) ∧
    (∃ r, evalExpr (fuel + 2) "a < b".toList ⟨df, [("a", .varr a), ("b", .varr b)]⟩ =
      .ok (.vbarr r) ∧ r[i]? = some false) ∧
    (∃ r, evalExpr (fuel + 2) "a = b".toList ⟨df, [("a", .varr a), ("b", .varr b)]⟩ =
      .ok (.vbarr r) ∧ r[i]? = some false) ∧
    (∃ r, evalExpr (fuel + 2) "a != b".toList ⟨df, [("a", .varr a), ("b", .varr b)]⟩ =
      .ok (.vbarr r) ∧ r[i]? = some true) ∧
    (∀ xs, getLastValue (some (.varr (xs ++ [F.nan]))) = .ok false) := by
  have harr : ∀ (f : F → F → F) (ys : List F), ys.length = a.length →
      lift2 f (.varr a) (.varr ys) = .ok (.varr (List.zipWith f a ys)) := by
    intro f ys hys
    simp [lift2, Val.asScalar, Val.asArray, hys]
  have hcmp : ∀ f : F → F → Bool, liftCmp f (.varr a) (.varr b) =
      .ok (.vbarr (List.zipWith f a b)) := by
    intro f
    simp [liftCmp, Val.asScalar, Val.asArray, hlen]
  refine ⟨⟨List.zipWith F.add a b, ?_, ?_⟩, ⟨List.zipWith F.sub a b, ?_, ?_⟩,
    ⟨List.zipWith F.mul a b, ?_, ?_⟩,
    ⟨List.zipWith F.div a (b.map (fun x => if F.eq x (F.fin 0) then F.nan else x)), ?_, ?_⟩,
    ⟨List.zipWith F.ge a b, ?_, ?_⟩, ⟨List.zipWith F.le a b, ?_, ?_⟩,
    ⟨List.zipWith F.gt a b, ?_, ?_⟩, ⟨List.zipWith F.lt a b, ?_, ?_⟩,
    ⟨List.zipWith F.eq a b, ?_, ?_⟩,
    ⟨(List.zipWith F.eq a b).map (!·), ?_, ?_⟩, ?_⟩
  · show (vAdd (.varr a) (.varr b)).mapError Err.data = _
    rw [show vAdd (.varr a) (.varr b) = lift2 F.add (.varr a) (.varr b) from rfl,
      harr F.add b hlen]
    rfl
  · exact zipWith_nan_row F.add F.nan F.add_nan_left F.add_nan_right a b hlen i hi hnan
  · show (vSub (.varr a) (.varr b)).mapError Err.data = _
    rw [show vSub (.varr a) (.varr b) = lift2 F.sub (.varr a) (.varr b) from rfl,
      harr F.sub b hlen]
    rfl
  · exact zipWith_nan_row F.sub F.nan F.sub_nan_left F.sub_nan_right a b hlen i hi hnan
  · show (vMul (.varr a) (.varr b)).mapError Err.data = _
    rw [show vMul (.varr a) (.varr b) = lift2 F.mul (.varr a) (.varr b) from rfl,
      harr F.mul b hlen]
    rfl
  · exact zipWith_nan_row F.mul F.nan F.mul_nan_left F.mul_nan_right a b hlen i hi hnan
  · show (vDiv (.varr a) (zeroGuard (.varr b))).mapError Err.data = _
    rw [show zeroGuard (.varr b) =
      .varr (b.map (fun x => if F.eq x (F.fin 0) then F.nan else x)) from rfl]
    rw [show vDiv (.varr a) (.varr (b.map (fun x => if F.eq x (F.fin 0) then F.nan else x))) =
      lift2 F.div (.varr a) (.varr (b.map (fun x => if F.eq x (F.fin 0) then F.nan else x))) from rfl]
    rw [harr F.div _ (by simp [hlen])]
    rfl
  · refine zipWith_nan_row F.div F.nan F.div_nan_left F.div_nan_right a _
      (by simp [hlen]) i hi ?_
    rcases hnan with h | h
    · exact Or.inl h
    · refine Or.inr ?_
      rw [List.getElem?_map, h]
      rfl
  · show (liftCmp F.ge (.varr a) (.varr b)).mapError Err.data = _
    rw [hcmp]
    rfl
  · exact zipWith_nan_row F.ge false F.ge_nan_left F.ge_nan_right a b hlen i hi hnan
  · show (liftCmp F.le (.varr a) (.varr b)).mapError Err.data = _
    rw [hcmp]
    rfl
  · exact zipWith_nan_row F.le false F.le_nan_left F.le_nan_right a b hlen i hi hnan
  · show (liftCmp F.gt (.varr a) (.varr b)).mapError Err.data = _
    rw [hcmp]
    rfl
  · exact zipWith_nan_row F.gt false F.gt_nan_left F.gt_nan_right a b hlen i hi hnan
  · show (liftCmp F.lt (.varr a) (.varr b)).mapError Err.data = _
    rw [hcmp]
    rfl
  · exact zipWith_nan_row F.lt false F.lt_nan_left F.lt_nan_right a b hlen i hi hnan
  · show (liftCmp F.eq (.varr a) (.varr b)).mapError Err.data = _
    rw [hcmp]
    rfl
  · exact zipWith_nan_row F.eq false F.eq_nan_left F.eq_nan_right a b hlen i hi hnan
  · show (vNe (.varr a) (.varr b)).mapError Err.data = _
    show (do
      match ← liftCmp F.eq (.varr a) (.varr b) with
      | .vbool bb => Except.ok (.vint (if bb then -2 else -1))
      | .vbarr bs => Except.ok (.vbarr (bs.map (!·)))
      | v => Except.ok v : Except String Val).mapError Err.data = _
    rw [hcmp]
    rfl
  · rw [List.getElem?_map]
    rw [zipWith_nan_row F.eq false F.eq_nan_left F.eq_nan_right a b hlen i hi hnan]
    rfl
  · intro xs
    simp [getLastValue, List.getLast?_concat, F.isnan]

/-- Claim C7 witness: the amended behaviour at `a = [nan]`, `b = [0]`,
row 0. -/
theorem claim_C7_witness :
    ∃ r, evalExpr (0 + 2) "a + b".toList
        ⟨[], [("a", .varr [F.nan]), ("b", .varr [F.fin 0])]⟩ =
      .ok (.varr r) ∧ r[0]? = some F.nan :=
  (claim_C7 0 [] [F.nan] [F.fin 0] (by decide) 0 (by decide) (Or.inl (by decide))).1

/-- Claim C5, counterexample.  The zero-divisor guard exists only at the
`/` operator of `_eval_expr`; `_sma`'s internal division `(M*x +
(N-M)*prev)/N` is raw Python division, so `SMA(C, 0, 1)` on closes
`[1, 3]` produces `(1*3 + (0-1)*1)/0 = +inf` at row 1 — a non-missing
value where the claim requires the missing sentinel (no exception is
raised, but the "produces missing" half of the claim fails inside
built-ins). -/
theorem claim_C5_counterexample :
    parseAndExecute 20 "SMA(C, 0, 1)"
        [("open", [F.fin 1, F.fin 1]), ("high", [F.fin 1, F.fin 1]),
         ("low", [F.fin 1, F.fin 1]), ("close", [F.fin 1, F.fin 3]),
         ("volume", [F.fin 1, F.fin 1]), ("amount", [F.fin 1, F.fin 1])] =
      .ok (some (.varr [F.fin 1, F.pinf])) ∧
    (F.pinf ≠ F.nan) := by
  constructor
  · have hsma : smaF [F.fin 1, F.fin 3] 0 1 = [F.fin 1, F.pinf] := by
      have key : smaF [F.fin 1, F.fin 3] 0 1 =
          [F.fin 1,
           F.div (F.add (F.mul (F.ofInt 1) (F.fin 3)) (F.mul (F.ofInt (0 - 1)) (F.fin 1)))
             (F.ofInt 0)] := rfl
      rw [key]
      have h1 : F.mul (F.ofInt 1) (F.fin 3) = F.fin 3 := by
        show F.fin _ = _
        norm_num [F.ofInt]
      have h2 : F.mul (F.ofInt (0 - 1)) (F.fin 1) = F.fin (-1) := by
        show F.fin _ = _
        norm_num [F.ofInt]
      rw [h1, h2]
      have h3 : F.add (F.fin 3) (F.fin (-1)) = F.fin 2 := by
        show F.fin _ = _
        norm_num
      rw [h3]
      have h4 : F.div (F.fin 2) (F.ofInt 0) = F.pinf := by
        show (if ((0 : ℤ) : ℚ) = 0 then
            (if (2 : ℚ) = 0 then F.nan else if (0 : ℚ) < 2 then F.pinf else F.ninf)
          else F.fin (2 / ((0 : ℤ) : ℚ))) = F.pinf
        norm_num
      rw [h4]
    calc parseAndExecute 20 "SMA(C, 0, 1)"
          [("open", [F.fin 1, F.fin 1]), ("high", [F.fin 1, F.fin 1]),
           ("low", [F.fin 1, F.fin 1]), ("close", [F.fin 1, F.fin 3]),
           ("volume", [F.fin 1, F.fin 1]), ("amount", [F.fin 1, F.fin 1])]
        = .ok (some (.varr (smaF [F.fin 1, F.fin 3] 0 1))) := rfl
      _ = .ok (some (.varr [F.fin 1, F.pinf])) := by rw [hsma]
  · decide

/-- Claim C5 (amended): at the `/` operator of `_eval_expr` the divisor
is passed through `np.where(divisor == 0, nan, divisor)`, so any row with
a zero divisor (and a zero *literal* divisor wholesale) evaluates to the
missing sentinel, and the division itself never raises; divisions inside
built-ins (such as SMA's `/N`) are unguarded and can produce non-missing
infinities (see the counterexample). -/
theorem claim_C5 (fuel : ℕ) (df : List (String × List F)) (a b : List F)
    (hlen : b.length = a.length) :
    (∃ r, evalExpr (fuel + 2) "a / b".toList ⟨df, [("a", .varr a), ("b", .varr b)]⟩ =
      .ok (.varr r) ∧ r.length = a.length ∧
      (∀ i, i < a.length → b[i]? = some (F.fin 0) → r[i]? = some F.nan)) ∧
    evalExpr (fuel + 2) "a / 0".toList ⟨df, [("a", .varr a), ("b", .varr b)]⟩ =
      .ok (.varr (a.map (fun _ => F.nan))) := by
  constructor
  · refine ⟨List.zipWith F.div a (b.map (fun x => if F.eq x (F.fin 0) then F.nan else x)),
      ?_, ?_, ?_⟩
    · show (vDiv (.varr a) (zeroGuard (.varr b))).mapError Err.data = _
      rw [show zeroGuard (.varr b) =
        .varr (b.map (fun x => if F.eq x (F.fin 0) then F.nan else x)) from rfl]
      rw [show vDiv (.varr a) (.varr (b.map (fun x => if F.eq x (F.fin 0) then F.nan else x))) =
        lift2 F.div (.varr a) (.varr (b.map (fun x => if F.eq x (F.fin 0) then F.nan else x))) from rfl]
      have hys : (b.map (fun x => if F.eq x (F.fin 0) then F.nan else x)).length = a.length := by
        simp [hlen]
      simp only [lift2, Val.asScalar, Val.asArray, hys, if_pos]
      rfl
    · simp [List.length_zipWith, hlen]
    · intro i hi hzero
      refine zipWith_nan_row F.div F.nan F.div_nan_left F.div_nan_right a _
        (by simp [hlen]) i hi (Or.inr ?_)
      rw [List.getElem?_map, hzero]
      rfl
  · show (vDiv (.varr a) (zeroGuard (.vint 0))).mapError Err.data = _
    rw [show zeroGuard (.vint 0) = .vfloat F.nan from rfl]
    rw [show vDiv (.varr a) (.vfloat F.nan) = lift2 F.div (.varr a) (.vfloat F.nan) from rfl]
    have : (a.map (fun x => F.div x F.nan)) = a.map (fun _ => F.nan) := by
      apply List.map_congr_left
      intro x _
      exact F.div_nan_right x
    simp only [lift2, Val.asScalar, Val.asArray, this]
    rfl

/-- Claim C5 witness: the guarded division at `a = [4, 6]`, `b = [0, 3]`:
row 0 is missing, no exception. -/
theorem claim_C5_witness :
    ∃ r, evalExpr (0 + 2) "a / b".toList
        ⟨[], [("a", .varr [F.fin 4, F.fin 6]), ("b", .varr [F.fin 0, F.fin 3])]⟩ =
      .ok (.varr r) ∧ r.length = [F.fin 4, F.fin 6].length ∧
      (∀ i, i < [F.fin 4, F.fin 6].length →
        [F.fin 0, F.fin 3][i]? = some (F.fin 0) → r[i]? = some F.nan) :=
  (claim_C5 0 [] [F.fin 4, F.fin 6] [F.fin 0, F.fin 3] (by decide)).1

/-! ### The smoke-test guarantee (C2)

The reference-error behaviour of `_eval_expr` (`未知函数`, `无法解析表达式`)
depends only on the formula text and on *which keys* exist in the cache —
never on the bar data: every branch condition of `_eval_expr` is a pure
function of the expression string and of cache-key membership, and every
data-touching operation is wrapped in `Err.data`.  Hence a formula whose
smoke-test run succeeds cannot raise one of the compile-time error kinds
on any dataframe. -/

theorem isRefErr_mapError_data {α : Type} (r : Except String α) :
    isRefErr (r.mapError Err.data) = false := by
  cases r <;> rfl

theorem isRefErr_map {α β : Type} (f : α → β) (r : Except Err α) :
    isRefErr (r.map f) = isRefErr r := by
  cases r <;> rfl

theorem isOkRes_map {α β : Type} (f : α → β) (r : Except Err α) :
    isOkRes (r.map f) = isOkRes r := by
  cases r <;> rfl

theorem except_bind_ok {α β : Type} (v : α) (f : α → Except Err β) :
    ((Except.ok v : Except Err α) >>= f) = f v := rfl

theorem except_bind_error {α β : Type} (e : Err) (f : α → Except Err β) :
    ((Except.error e : Except Err α) >>= f) = .error e := rfl

/-- Hit-or-miss of a dict lookup depends only on the key list. -/
theorem lookup_isSome_of_keys_eq (k : String) :
    ∀ (l1 l2 : List (String × Val)), l1.map Prod.fst = l2.map Prod.fst →
      (l1.lookup k).isSome = (l2.lookup k).isSome := by
  intro l1
  induction l1 with
  | nil =>
      intro l2 h
      cases l2 with
      | nil => rfl
      | cons q r2 => simp at h
  | cons p r1 ih =>
      intro l2 h
      cases l2 with
      | nil => simp at h
      | cons q r2 =>
          simp only [List.map_cons, List.cons.injEq] at h
          simp only [List.lookup]
          rw [← h.1]
          cases hkq : k == p.1 with
          | true => rfl
          | false => exact ih r2 h.2

/-- Hit-or-miss of the case-insensitive scan depends only on the key list. -/
theorem ciScan_isSome_of_keys_eq (t : String) :
    ∀ (l1 l2 : List (String × Val)), l1.map Prod.fst = l2.map Prod.fst →
      (ciScan l1 t).isSome = (ciScan l2 t).isSome := by
  intro l1
  induction l1 with
  | nil =>
      intro l2 h
      cases l2 with
      | nil => rfl
      | cons q r2 => simp at h
  | cons p r1 ih =>
      intro l2 h
      cases l2 with
      | nil => simp at h
      | cons q r2 =>
          simp only [List.map_cons, List.cons.injEq] at h
          simp only [ciScan, List.find?]
          rw [← h.1]
          cases hp : String.mk (upperStr p.1.toList) == t with
          | true => rfl
          | false =>
              have := ih r2 h.2
              simpa [ciScan] using this

/-- `dictSet` affects the key list in a way determined by the key list. -/
theorem dictSet_keys_congr (k : String) (v1 v2 : Val) :
    ∀ (l1 l2 : List (String × Val)), l1.map Prod.fst = l2.map Prod.fst →
      (dictSet k v1 l1).map Prod.fst = (dictSet k v2 l2).map Prod.fst := by
  intro l1
  induction l1 with
  | nil =>
      intro l2 h
      cases l2 with
      | nil => rfl
      | cons q r2 => simp at h
  | cons p r1 ih =>
      intro l2 h
      cases l2 with
      | nil => simp at h
      | cons q r2 =>
          simp only [List.map_cons, List.cons.injEq] at h
          simp only [dictSet]
          rw [← h.1]
          by_cases hk : p.1 = k
          · simp only [if_pos hk, List.map_cons, List.cons.injEq]
            exact ⟨trivial, h.2⟩
          · simp only [if_neg hk, List.map_cons, List.cons.injEq]
            exact ⟨trivial, ih r2 h.2⟩

/-- List-level simulation, given the expression-level simulation at the
same fuel. -/
theorem evalSeq_sim (fuel : ℕ)
    (hP : ∀ (e : List Char) (c1 c2 : Ctx),
      c1.cache.map Prod.fst = c2.cache.map Prod.fst →
      isOkRes (evalExpr fuel e c1) = true → isRefErr (evalExpr fuel e c2) = false) :
    ∀ (es : List (List Char)) (c1 c2 : Ctx),
      c1.cache.map Prod.fst = c2.cache.map Prod.fst →
      isOkRes (evalSeq (fun x => evalExpr fuel x c1) es) = true →
      isRefErr (evalSeq (fun x => evalExpr fuel x c2) es) = false := by
  intro es
  induction es with
  | nil =>
      intro c1 c2 _ _
      rfl
  | cons e rest ih =>
      intro c1 c2 hkeys hok
      simp only [evalSeq] at hok ⊢
      cases h1 : evalExpr fuel e c1 with
      | error e1 =>
          rw [h1, except_bind_error] at hok
          exact absurd hok (by simp [isOkRes])
      | ok v1 =>
          rw [h1, except_bind_ok] at hok
          cases h2 : evalSeq (fun x => evalExpr fuel x c1) rest with
          | error e2 =>
              rw [h2, except_bind_error] at hok
              exact absurd hok (by simp [isOkRes])
          | ok vs1 =>
              cases g1 : evalExpr fuel e c2 with
              | error f1 =>
                  rw [except_bind_error]
                  have hp := hP e c1 c2 hkeys (by rw [h1]; rfl)
                  rw [g1] at hp
                  exact hp
              | ok w1 =>
                  rw [except_bind_ok]
                  cases g2 : evalSeq (fun x => evalExpr fuel x c2) rest with
                  | error f2 =>
                      rw [except_bind_error]
                      have hq := ih c1 c2 hkeys (by rw [h2]; rfl)
                      rw [g2] at hq
                      exact hq
                  | ok ws =>
                      rw [except_bind_ok]
                      rfl

theorem isRefErr_varBranch (d : List (String × List F)) (col : String) :
    isRefErr (match List.lookup col d with
      | some xs => Except.ok (Val.varr xs)
      | none => Except.error (Err.data ("数据列不存在: " ++ col))) = false := by
  cases List.lookup col d with
  | some xs => rfl
  | none => rfl

theorem isRefErr_bind2 (E1 E2 : Except Err Val) (g : Val → Val → Except Err Val)
    (h1 : isRefErr E1 = false) (h2 : isRefErr E2 = false)
    (hg : ∀ v w, isRefErr (g v w) = false) :
    isRefErr (do let lv ← E1; let rv ← E2; g lv rv) = false := by
  cases E1 with
  | error e => exact h1
  | ok v =>
      cases E2 with
      | error e => exact h2
      | ok w => exact hg v w

theorem isRefErr_matchSeq (E : Except Err (List Val)) (g : List Val → Except String Val)
    (hE : isRefErr E = false) :
    isRefErr (match E with
      | .error e => .error e
      | .ok rs => (g rs).mapError Err.data) = false := by
  cases E with
  | error e => exact hE
  | ok rs => exact isRefErr_mapError_data _

theorem isRefErr_funcBranch (E : Except Err (List Val)) (name : List Char)
    (f : List Val → Except String Val)
    (hE : isRefErr E = false)
    (hft : List.lookup (String.mk (upperStr name)) functionTable = some f) :
    isRefErr (match E with
      | .error e => .error e
      | .ok args =>
          (match List.lookup (String.mk (upperStr name)) functionTable with
           | some f => (f args).mapError Err.data
           | none => .error (.ref ("未知函数: " ++ String.mk (upperStr name))))) = false := by
  cases E with
  | error e => exact hE
  | ok args =>
      show isRefErr (match List.lookup (String.mk (upperStr name)) functionTable with
        | some f => (f args).mapError Err.data
        | none => .error (.ref ("未知函数: " ++ String.mk (upperStr name)))) = false
      rw [hft]
      exact isRefErr_mapError_data _

set_option maxHeartbeats 2000000 in
/-- Expression-level simulation: with equal cache key lists, an evaluation
that succeeds on one context cannot produce a reference error on the
other — the branch taken by `_eval_expr` is a function of the text and the
key list alone, and every data-touching step is wrapped in `Err.data`. -/
theorem evalExpr_sim : ∀ (fuel : ℕ) (e : List Char) (c1 c2 : Ctx),
    c1.cache.map Prod.fst = c2.cache.map Prod.fst →
    isOkRes (evalExpr fuel e c1) = true → isRefErr (evalExpr fuel e c2) = false := by
  intro fuel
  induction fuel with
  | zero =>
      intro e c1 c2 _ hok
      exact absurd hok (by simp [evalExpr, isOkRes])
  | succ n ih =>
      intro e c1 c2 hkeys hok
      have hseq := evalSeq_sim n ih
      simp only [evalExpr] at hok ⊢
      cases h1 : List.lookup (String.mk (pyStrip e)) c1.cache with
      | some v1 =>
          cases h2 : List.lookup (String.mk (pyStrip e)) c2.cache with
          | some v2 => rfl
          | none =>
              have hs := lookup_isSome_of_keys_eq (String.mk (pyStrip e)) _ _ hkeys
              rw [h1, h2] at hs
              simp at hs
      | none =>
          cases h2 : List.lookup (String.mk (pyStrip e)) c2.cache with
          | some v2 =>
              have hs := lookup_isSome_of_keys_eq (String.mk (pyStrip e)) _ _ hkeys
              rw [h1, h2] at hs
              simp at hs
          | none =>
              simp only [h1] at hok
              by_cases hAnd : containsStr " AND ".toList (upperStr (pyStrip e)) = true
              · simp only [hAnd, if_true] at hok ⊢
                cases hs1 : evalSeq (fun x => evalExpr n x c1)
                    (reSplitWord "AND".toList (pyStrip e)) with
                | error e1 =>
                    rw [hs1] at hok
                    simp [isOkRes] at hok
                | ok rs1 =>
                    exact isRefErr_matchSeq _ npAll (hseq _ c1 c2 hkeys (by rw [hs1]; rfl))
              · simp only [hAnd, Bool.false_eq_true, if_false] at hok ⊢
                by_cases hOr : containsStr " OR ".toList (upperStr (pyStrip e)) = true
                · simp only [hOr, if_true] at hok ⊢
                  cases hs1 : evalSeq (fun x => evalExpr n x c1)
                      (reSplitWord "OR".toList (pyStrip e)) with
                  | error e1 =>
                      rw [hs1] at hok
                      simp [isOkRes] at hok
                  | ok rs1 =>
                      exact isRefErr_matchSeq _ npAny (hseq _ c1 c2 hkeys (by rw [hs1]; rfl))
                · simp only [hOr, Bool.false_eq_true, if_false] at hok ⊢
                  cases hcmp : findCmpSplit (pyStrip e) with
                  | some t =>
                      obtain ⟨op, l, r⟩ := t
                      simp only [hcmp] at hok
                      cases hl1 : evalExpr n l c1 with
                      | error e1 =>
                          rw [hl1, except_bind_error] at hok
                          simp [isOkRes] at hok
                      | ok lv1 =>
                          rw [hl1, except_bind_ok] at hok
                          cases hr1 : evalExpr n r c1 with
                          | error e1 =>
                              rw [hr1, except_bind_error] at hok
                              simp [isOkRes] at hok
                          | ok rv1 =>
                              exact isRefErr_bind2 _ _ _
                                (ih l c1 c2 hkeys (by rw [hl1]; rfl))
                                (ih r c1 c2 hkeys (by rw [hr1]; rfl))
                                (fun v w => isRefErr_mapError_data _)
                  | none =>
                      simp only [hcmp] at hok
                      cases hadd : arithSplit ['+', '-'] (pyStrip e) with
                      | some t =>
                          obtain ⟨op, l, r⟩ := t
                          simp only [hadd] at hok
                          cases hl1 : evalExpr n l c1 with
                          | error e1 =>
                              rw [hl1, except_bind_error] at hok
                              simp [isOkRes] at hok
                          | ok lv1 =>
                              rw [hl1, except_bind_ok] at hok
                              cases hr1 : evalExpr n r c1 with
                              | error e1 =>
                                  rw [hr1, except_bind_error] at hok
                                  simp [isOkRes] at hok
                              | ok rv1 =>
                                  exact isRefErr_bind2 _ _ _
                                    (ih l c1 c2 hkeys (by rw [hl1]; rfl))
                                    (ih r c1 c2 hkeys (by rw [hr1]; rfl))
                                    (fun v w => isRefErr_mapError_data _)
                      | none =>
                          simp only [hadd] at hok
                          cases hmul : arithSplit ['*', '/'] (pyStrip e) with
                          | some t =>
                              obtain ⟨op, l, r⟩ := t
                              simp only [hmul] at hok
                              cases hl1 : evalExpr n l c1 with
                              | error e1 =>
                                  rw [hl1, except_bind_error] at hok
                                  simp [isOkRes] at hok
                              | ok lv1 =>
                                  rw [hl1, except_bind_ok] at hok
                                  cases hr1 : evalExpr n r c1 with
                                  | error e1 =>
                                      rw [hr1, except_bind_error] at hok
                                      simp [isOkRes] at hok
                                  | ok rv1 =>
                                      refine isRefErr_bind2 _ _ _
                                        (ih l c1 c2 hkeys (by rw [hl1]; rfl))
                                        (ih r c1 c2 hkeys (by rw [hr1]; rfl))
                                        (fun v w => ?_)
                                      by_cases hop : (op == '/') = true
                                      · simp only [hop, if_true]
                                        exact isRefErr_mapError_data _
                                      · simp only [hop, Bool.false_eq_true, if_false]
                                        exact isRefErr_mapError_data _
                          | none =>
                              simp only [hmul] at hok
                              by_cases hpar : ((pyStrip e).head? == some '(' &&
                                  (pyStrip e).getLast? == some ')') = true
                              · simp only [hpar, if_true] at hok ⊢
                                exact ih _ c1 c2 hkeys hok
                              · simp only [hpar, Bool.false_eq_true, if_false] at hok ⊢
                                cases hfc : matchFuncCall (pyStrip e) with
                                | some t =>
                                    obtain ⟨name, argsStr⟩ := t
                                    simp only [hfc] at hok
                                    cases hs1 : evalSeq (fun x => evalExpr n x c1)
                                        (splitArgsStr argsStr) with
                                    | error e1 =>
                                        rw [hs1] at hok
                                        simp [isOkRes] at hok
                                    | ok args1 =>
                                        rw [hs1] at hok
                                        cases hft : List.lookup (String.mk (upperStr name))
                                            functionTable with
                                        | some f =>
                                            exact isRefErr_funcBranch _ name f
                                              (hseq _ c1 c2 hkeys (by rw [hs1]; rfl)) hft
                                        | none =>
                                            rw [hft] at hok
                                            simp [isOkRes] at hok
                                | none =>
                                    simp only [hfc] at hok
                                    cases hvt : List.lookup (String.mk (upperStr (pyStrip e)))
                                        variablesTable with
                                    | some col =>
                                        exact isRefErr_varBranch c2.df col
                                    | none =>
                                        simp only [hvt] at hok
                                        cases h2u : List.lookup
                                            (String.mk (upperStr (pyStrip e))) c2.cache with
                                        | some v2 =>
                                            cases h1u : List.lookup
                                                (String.mk (upperStr (pyStrip e))) c1.cache with
                                            | some v1 => rfl
                                            | none =>
                                                have hs := lookup_isSome_of_keys_eq
                                                  (String.mk (upperStr (pyStrip e))) _ _ hkeys
                                                rw [h1u, h2u] at hs
                                                simp at hs
                                        | none =>
                                            cases h1u : List.lookup
                                                (String.mk (upperStr (pyStrip e))) c1.cache with
                                            | some v1 =>
                                                have hs := lookup_isSome_of_keys_eq
                                                  (String.mk (upperStr (pyStrip e))) _ _ hkeys
                                                rw [h1u, h2u] at hs
                                                simp at hs
                                            | none =>
                                                simp only [h1u, h1] at hok
                                                cases h2s : ciScan c2.cache
                                                    (String.mk (upperStr (pyStrip e))) with
                                                | some v2 => rfl
                                                | none =>
                                                    cases h1s : ciScan c1.cache
                                                        (String.mk (upperStr (pyStrip e))) with
                                                    | some v1 =>
                                                        have hs := ciScan_isSome_of_keys_eq
                                                          (String.mk (upperStr (pyStrip e))) _ _ hkeys
                                                        rw [h1s, h2s] at hs
                                                        simp at hs
                                                    | none =>
                                                        simp only [h1s] at hok
                                                        by_cases hdot : (pyStrip e).contains '.' = true
                                                        · simp only [hdot, if_true] at hok ⊢
                                                          cases hpf : parseFloatPy (pyStrip e) with
                                                          | some q => rfl
                                                          | none =>
                                                              rw [hpf] at hok
                                                              simp [isOkRes] at hok
                                                        · simp only [hdot, Bool.false_eq_true,
                                                            if_false] at hok ⊢
                                                          cases hpi : parseIntPy (pyStrip e) with
                                                          | some m => rfl
                                                          | none =>
                                                              rw [hpi] at hok
                                                              simp [isOkRes] at hok


theorem isRefErr_stmtBind (E : Except Err Val) (k : Val → Except Err (Option Val × Ctx))
    (hE : isRefErr E = false) (hk : ∀ v, isRefErr (k v) = false) :
    isRefErr (do let v ← E; k v) = false := by
  cases E with
  | error e => exact hE
  | ok v => exact hk v

/-- Statement-level simulation for `parse_and_execute`'s loop: the cache
key lists evolve identically on both contexts, so a program that runs
clean on one context cannot hit a reference error on the other. -/
theorem execStatements_sim (fuel : ℕ) :
    ∀ (lines : List (List Char)) (c1 c2 : Ctx) (r1 r2 : Option Val),
      c1.cache.map Prod.fst = c2.cache.map Prod.fst →
      isOkRes (execStatements fuel lines c1 r1) = true →
      isRefErr (execStatements fuel lines c2 r2) = false := by
  intro lines
  induction lines with
  | nil =>
      intro c1 c2 r1 r2 _ _
      rfl
  | cons line rest ih =>
      intro c1 c2 r1 r2 hkeys hok
      simp only [execStatements] at hok ⊢
      cases hsp : splitFirstStr ":=".toList line with
      | some t =>
          obtain ⟨nm, ex⟩ := t
          simp only [hsp] at hok
          cases hv1 : evalExpr fuel (pyStrip ex) c1 with
          | error e1 =>
              rw [hv1, except_bind_error] at hok
              simp [isOkRes] at hok
          | ok v1 =>
              rw [hv1, except_bind_ok] at hok
              refine isRefErr_stmtBind _ _
                (evalExpr_sim fuel (pyStrip ex) c1 c2 hkeys (by rw [hv1]; rfl))
                (fun w => ?_)
              refine ih _ _ (some v1) (some w) ?_ hok
              exact dictSet_keys_congr _ v1 w _ _
                (dictSet_keys_congr _ v1 w _ _ hkeys)
      | none =>
          simp only [hsp] at hok
          cases hv1 : evalExpr fuel line c1 with
          | error e1 =>
              rw [hv1, except_bind_error] at hok
              simp [isOkRes] at hok
          | ok v1 =>
              rw [hv1, except_bind_ok] at hok
              refine isRefErr_stmtBind _ _
                (evalExpr_sim fuel line c1 c2 hkeys (by rw [hv1]; rfl))
                (fun w => ?_)
              exact ih _ _ (some v1) (some w) hkeys hok

/-- A well-formed bar frame in the sense of the claim: all six OHLCV
columns present, equal lengths, at least one row. -/
def WellFormedDf (df : List (String × List F)) : Prop :=
  ∃ L : ℕ, 1 ≤ L ∧
    ∀ col ∈ (["open", "high", "low", "close", "volume", "amount"] : List String),
      ∃ xs, df.lookup col = some xs ∧ xs.length = L

/-- Claim C2: if the compile-time smoke test (one run against the
50-row constant synthetic frame `testDf`) raises no error, then running
the same formula against any well-formed bar frame can never raise a
syntax error, an unknown-function error or an unresolvable-identifier
error (the `Err.ref` class); any failure is of the data-dependent
`Err.data` class.  (The proof in fact never needs well-formedness: a
missing column is itself a data-dependent error; the hypothesis mirrors
the claim.) -/
theorem claim_C2 (fuel : ℕ) (φ : String) (df : List (String × List F)) (v : Option Val)
    (_hwf : WellFormedDf df)
    (hsmoke : parseAndExecute fuel φ testDf = .ok v) :
    isRefErr (parseAndExecute fuel φ df) = false := by
  simp only [parseAndExecute] at hsmoke ⊢
  by_cases hemp : (pyStrip (stripComments φ.toList)).isEmpty = true
  · simp only [hemp, if_true]
    rfl
  · simp only [hemp, Bool.false_eq_true, if_false] at hsmoke ⊢
    rw [isRefErr_map]
    refine execStatements_sim fuel _ ⟨testDf, []⟩ ⟨df, []⟩ none none rfl ?_
    cases hx : execStatements fuel
        (((splitOnChar ';' (pyStrip (stripComments φ.toList))).map pyStrip).filter
          (fun l => !l.isEmpty)) ⟨testDf, []⟩ none with
    | error e =>
        rw [hx] at hsmoke
        simp [Except.map] at hsmoke
    | ok p => rfl

/-- Claim C2 witness: the formula `1` passes the smoke test, and on a
concrete well-formed one-row frame its run is free of reference
errors. -/
theorem claim_C2_witness :
    isRefErr (parseAndExecute 5 "1"
      [("open", [F.fin 1]), ("high", [F.fin 2]), ("low", [F.fin 1]),
       ("close", [F.fin 2]), ("volume", [F.fin 3]), ("amount", [F.fin 4])]) = false :=
  claim_C2 5 "1"
    [("open", [F.fin 1]), ("high", [F.fin 2]), ("low", [F.fin 1]),
     ("close", [F.fin 2]), ("volume", [F.fin 3]), ("amount", [F.fin 4])]
    (some (.vint 1))
    ⟨1, Nat.le_refl 1, by intro col hc; fin_cases hc <;> exact ⟨_, rfl, rfl⟩⟩
    rfl

end StockInsight
